import Mathlib

/-!
Verification of the stamp-analysis pipeline (`analyze_stamp.py`, `json_to_voice.py`).

The pipeline reads a stamp image, sends it to an inference service, validates the
response envelope, parses the returned text as JSON, persists it pretty-printed to
`output/result.json`, and optionally turns the record into a narration script and an
audio file.  The embedding below models the JSON data handled by Python's `json`
module (a value type, the `dumps(..., ensure_ascii=False, indent=2)` printer, and a
`loads` parser), the process environment, the filesystem as a finite map, the
service responses as explicit stub values, and the two modules' functions as pure
Lean functions returning `Except` values in place of raised exceptions.
-/

/-! ## JSON values

JSON values as handled by Python's `json` module.  Numbers are kept in decimal
notation (sign, integer part, fractional digits), which is the form `json.dumps`
emits for the ints and floats appearing in a `StampRecord` and the form `json.loads`
reads back.  Arrays and objects are mutual inductives so that every function below
is plain structural recursion.
-/

mutual

inductive Json where
  | null
  | bool (b : Bool)
  | num (neg : Bool) (ip : Nat) (frac : List Nat)
  | str (s : String)
  | arr (elems : JsonList)
  | obj (fields : JsonFields)
deriving Repr, DecidableEq

inductive JsonList where
  | nil
  | cons (hd : Json) (tl : JsonList)
deriving Repr, DecidableEq

inductive JsonFields where
  | nil
  | cons (key : String) (val : Json) (tl : JsonFields)
deriving Repr, DecidableEq

end

/-! Well-formedness of the decimal digit lists inside a `Json` value: every stored
fractional digit is an actual digit (`< 10`). -/

mutual

def Json.wf : Json → Bool
  | .null => true
  | .bool _ => true
  | .num _ _ frac => frac.all (fun d => d < 10)
  | .str _ => true
  | .arr xs => xs.wf
  | .obj fs => fs.wf

def JsonList.wf : JsonList → Bool
  | .nil => true
  | .cons x xs => x.wf && xs.wf

def JsonFields.wf : JsonFields → Bool
  | .nil => true
  | .cons _ v fs => v.wf && fs.wf

end

/-- Opening brace character (written via its code point). -/
def lbrace : Char := Char.ofNat 123

/-- Closing brace character (written via its code point). -/
def rbrace : Char := Char.ofNat 125

/-- Decimal digit character for a digit value. -/
def digitChar (d : Nat) : Char := Char.ofNat (48 + d)

/-- Lower-case hexadecimal digit character for a value below 16. -/
def hexDigitChar (d : Nat) : Char :=
  if d < 10 then digitChar d else Char.ofNat (87 + d)

/-- Decimal digit characters of a natural number, most significant first, as
Python's `repr`/`str` prints it. -/
def natChars (n : Nat) : List Char :=
  if n = 0 then ['0'] else (Nat.digits 10 n).reverse.map digitChar

/-- Characters of a JSON number in the decimal notation `json.dumps` emits:
optional minus sign, integer part, and a fractional part when digits are present. -/
def numChars (neg : Bool) (ip : Nat) (frac : List Nat) : List Char :=
  (if neg then ['-'] else []) ++ natChars ip ++
    (if frac.isEmpty then [] else '.' :: frac.map digitChar)

/-- Escaping of one character inside a JSON string literal, exactly as CPython's
`json.dumps(..., ensure_ascii=False)` does it: `"` and backslash are escaped, the
named control escapes are used for 8, 9, 10, 12, 13, remaining control characters
become `\u00XX` with lower-case hex, and everything else is emitted raw. -/
def escapeChar (c : Char) : List Char :=
  if c = '"' then ['\\', '"']
  else if c = '\\' then ['\\', '\\']
  else if c = '\n' then ['\\', 'n']
  else if c = '\t' then ['\\', 't']
  else if c = '\r' then ['\\', 'r']
  else if c.toNat = 8 then ['\\', 'b']
  else if c.toNat = 12 then ['\\', 'f']
  else if c.toNat < 32 then
    ['\\', 'u', '0', '0', hexDigitChar (c.toNat / 16), hexDigitChar (c.toNat % 16)]
  else [c]

/-- Characters of a JSON string literal: quote, escaped body, quote. -/
def escapeStringChars (s : String) : List Char :=
  '"' :: s.data.flatMap escapeChar ++ ['"']

/-- Indentation prefix for nesting depth `level` under `indent=2`. -/
def indentChars (level : Nat) : List Char := List.replicate (2 * level) ' '

/-! Characters of `json.dumps(v, ensure_ascii=False, indent=2)` at nesting depth
`level`, together with the item and field renderers.  With `indent=2` Python puts
every array element and object member on its own indented line, separates items
with `,` + newline, separates keys from values with `: `, and prints empty
containers compactly. -/

mutual

def dumpsChars : Nat → Json → List Char
  | _, .null => ['n', 'u', 'l', 'l']
  | _, .bool true => ['t', 'r', 'u', 'e']
  | _, .bool false => ['f', 'a', 'l', 's', 'e']
  | _, .num neg ip frac => numChars neg ip frac
  | _, .str s => escapeStringChars s
  | _, .arr .nil => ['[', ']']
  | level, .arr (.cons x xs) =>
      '[' :: '\n' ::
        (dumpsItemsChars (level + 1) (JsonList.cons x xs) ++
          '\n' :: indentChars level ++ [']'])
  | _, .obj .nil => [lbrace, rbrace]
  | level, .obj (.cons k v fs) =>
      lbrace :: '\n' ::
        (dumpsFieldsChars (level + 1) (JsonFields.cons k v fs) ++
          '\n' :: indentChars level ++ [rbrace])

def dumpsItemsChars : Nat → JsonList → List Char
  | _, .nil => []
  | level, .cons x .nil => indentChars level ++ dumpsChars level x
  | level, .cons x (JsonList.cons y ys) =>
      indentChars level ++ dumpsChars level x ++
        ',' :: '\n' :: dumpsItemsChars level (JsonList.cons y ys)

def dumpsFieldsChars : Nat → JsonFields → List Char
  | _, .nil => []
  | level, .cons k v .nil =>
      indentChars level ++ escapeStringChars k ++ ':' :: ' ' :: dumpsChars level v
  | level, .cons k v (JsonFields.cons k2 v2 fs) =>
      indentChars level ++ escapeStringChars k ++ ':' :: ' ' :: dumpsChars level v ++
        ',' :: '\n' :: dumpsFieldsChars level (JsonFields.cons k2 v2 fs)

end

/-- Result of `json.dumps(v, ensure_ascii=False, indent=2)` as a string. -/
def json_dumps (j : Json) : String := ⟨dumpsChars 0 j⟩

/-! ## JSON parsing (`json.loads`) -/

/-- JSON whitespace recognised between tokens. -/
def isWsChar (c : Char) : Bool := c = ' ' || c = '\n' || c = '\t' || c = '\r'

/-- Drop leading JSON whitespace. -/
def skipWs : List Char → List Char
  | [] => []
  | c :: cs => if isWsChar c then skipWs cs else c :: cs

/-- Decimal digit test on characters. -/
def isDigitChar (c : Char) : Bool := 48 ≤ c.toNat && c.toNat ≤ 57

/-- Digit value of a decimal digit character. -/
def digitVal (c : Char) : Nat := c.toNat - 48

/-- Consume a run of decimal digit characters, accumulating their value most
significant digit first. -/
def parseDigitsAux (acc : Nat) : List Char → Nat × List Char
  | [] => (acc, [])
  | c :: cs =>
      if isDigitChar c then parseDigitsAux (acc * 10 + digitVal c) cs else (acc, c :: cs)

/-- Parse a non-empty run of decimal digits into a natural number. -/
def parseNatChars : List Char → Option (Nat × List Char)
  | [] => none
  | c :: cs => if isDigitChar c then some (parseDigitsAux (digitVal c) cs) else none

/-- Consume a run of decimal digit characters, keeping the digit values in order. -/
def parseFracAux (acc : List Nat) : List Char → List Nat × List Char
  | [] => (acc.reverse, [])
  | c :: cs =>
      if isDigitChar c then parseFracAux (digitVal c :: acc) cs else (acc.reverse, c :: cs)

/-- Parse the digits of a JSON number after an optional leading minus sign:
integer part, then an optional `.` followed by at least one fractional digit. -/
def parseNumAfterSign (neg : Bool) (l : List Char) : Option (Json × List Char) :=
  match parseNatChars l with
  | none => none
  | some (ip, rest) =>
    match rest with
    | [] => some (.num neg ip [], [])
    | c :: rest2 =>
      if c = '.' then
        match rest2 with
        | [] => none
        | c2 :: _ =>
          if isDigitChar c2 then
            let p := parseFracAux [] rest2
            some (.num neg ip p.1, p.2)
          else none
      else some (.num neg ip [], c :: rest2)

/-- Value of a hexadecimal digit character, upper or lower case. -/
def hexVal (c : Char) : Option Nat :=
  if 48 ≤ c.toNat && c.toNat ≤ 57 then some (c.toNat - 48)
  else if 97 ≤ c.toNat && c.toNat ≤ 102 then some (c.toNat - 87)
  else if 65 ≤ c.toNat && c.toNat ≤ 70 then some (c.toNat - 55)
  else none

/-- Named single-character escapes accepted after a backslash in a JSON string. -/
def unescape (e : Char) : Option Char :=
  if e = '"' then some '"'
  else if e = '\\' then some '\\'
  else if e = '/' then some '/'
  else if e = 'n' then some '\n'
  else if e = 't' then some '\t'
  else if e = 'r' then some '\r'
  else if e = 'b' then some (Char.ofNat 8)
  else if e = 'f' then some (Char.ofNat 12)
  else none

/-- Parse the body of a JSON string literal after the opening quote, accumulating
decoded characters in reverse; stops at the closing quote. -/
def parseStringBody (acc : List Char) : List Char → Option (String × List Char)
  | [] => none
  | c :: cs =>
    if c = '"' then some (⟨acc.reverse⟩, cs)
    else if c = '\\' then
      match cs with
      | [] => none
      | e :: cs2 =>
        if e = 'u' then
          match cs2 with
          | h1 :: h2 :: h3 :: h4 :: cs3 =>
            match hexVal h1, hexVal h2, hexVal h3, hexVal h4 with
            | some a, some b, some c2, some d =>
                parseStringBody (Char.ofNat (((a * 16 + b) * 16 + c2) * 16 + d) :: acc) cs3
            | _, _, _, _ => none
          | _ => none
        else
          match unescape e with
          | some c2 => parseStringBody (c2 :: acc) cs2
          | none => none
    else parseStringBody (c :: acc) cs

/-! Recursive-descent JSON value parser with explicit fuel, together with the
parsers for the element list after `[` and the member list after the opening
brace (used only when the container is non-empty). -/

mutual

def parseValue : Nat → List Char → Option (Json × List Char)
  | 0, _ => none
  | fuel + 1, l =>
    match skipWs l with
    | [] => none
    | c :: cs =>
      if c = 'n' then
        match cs with
        | 'u' :: 'l' :: 'l' :: cs2 => some (.null, cs2)
        | _ => none
      else if c = 't' then
        match cs with
        | 'r' :: 'u' :: 'e' :: cs2 => some (.bool true, cs2)
        | _ => none
      else if c = 'f' then
        match cs with
        | 'a' :: 'l' :: 's' :: 'e' :: cs2 => some (.bool false, cs2)
        | _ => none
      else if c = '"' then
        match parseStringBody [] cs with
        | some (s, cs2) => some (.str s, cs2)
        | none => none
      else if c = '-' then parseNumAfterSign true cs
      else if isDigitChar c then parseNumAfterSign false (c :: cs)
      else if c = '[' then
        match skipWs cs with
        | c2 :: cs2 =>
          if c2 = ']' then some (.arr .nil, cs2)
          else
            match parseItems fuel cs with
            | some (xs, cs2) => some (.arr xs, cs2)
            | none => none
        | [] => none
      else if c = lbrace then
        match skipWs cs with
        | c2 :: cs2 =>
          if c2 = rbrace then some (.obj .nil, cs2)
          else
            match parseFields fuel cs with
            | some (fs, cs2) => some (.obj fs, cs2)
            | none => none
        | [] => none
      else none

def parseItems : Nat → List Char → Option (JsonList × List Char)
  | 0, _ => none
  | fuel + 1, l =>
    match parseValue fuel l with
    | none => none
    | some (x, rest) =>
      match skipWs rest with
      | c :: rest2 =>
        if c = ',' then
          match parseItems fuel rest2 with
          | some (xs, rest3) => some (.cons x xs, rest3)
          | none => none
        else if c = ']' then some (.cons x .nil, rest2)
        else none
      | [] => none

def parseFields : Nat → List Char → Option (JsonFields × List Char)
  | 0, _ => none
  | fuel + 1, l =>
    match skipWs l with
    | c0 :: cs =>
      if c0 = '"' then
        match parseStringBody [] cs with
        | none => none
        | some (k, rest) =>
          match skipWs rest with
          | c1 :: rest2 =>
            if c1 = ':' then
              match parseValue fuel rest2 with
              | none => none
              | some (v, rest3) =>
                match skipWs rest3 with
                | c :: rest4 =>
                  if c = ',' then
                    match parseFields fuel rest4 with
                    | some (fs, rest5) => some (.cons k v fs, rest5)
                    | none => none
                  else if c = rbrace then some (.cons k v .nil, rest4)
                  else none
                | [] => none
            else none
          | [] => none
      else none
    | [] => none

end

/-- Result of `json.loads(s)`: parse one value with enough fuel and require only
whitespace to remain. -/
def json_loads (s : String) : Option Json :=
  match parseValue (s.length + 1) s.data with
  | some (j, rest) => if skipWs rest = [] then some j else none
  | none => none

/-! Fuel needed by `parseValue` on the output of `dumpsChars`, with the
corresponding counts for item and field lists. -/

mutual

def jsize : Json → Nat
  | .null => 1
  | .bool _ => 1
  | .num _ _ _ => 1
  | .str _ => 1
  | .arr xs => jsizeItems xs + 1
  | .obj fs => jsizeFields fs + 1

def jsizeItems : JsonList → Nat
  | .nil => 0
  | .cons x xs => jsize x + jsizeItems xs + 1

def jsizeFields : JsonFields → Nat
  | .nil => 0
  | .cons _ v fs => jsize v + jsizeFields fs + 1

end

/-! ## Process environment, filesystem, exceptions

The environment holds the five variables the two modules read.  `none` is an unset
variable; Python's truthiness test `not x` used throughout the source is false for
both `None` and the empty string.
-/

/-- Python truthiness of an `os.getenv` result: `None` and `""` are falsy. -/
def truthy : Option String → Bool
  | none => false
  | some s => s ≠ ""

/-- Process environment as read by the two modules (`os.getenv`). -/
structure Env where
  openai_api_key : Option String
  openai_model : Option String
  openai_tts_model : Option String
  openai_tts_voice : Option String
  openai_tts_format : Option String

/-- Content of one file: text (opened with `encoding="utf-8"`) or bytes (`"wb"`). -/
inductive FileData where
  | text (s : String)
  | binary (bytes : List Nat)
deriving Repr, DecidableEq

/-- Filesystem as a map from path to file content; `none` means no such file. -/
def FS := String → Option FileData

/-- Existence test (`os.path.exists`). -/
def FS.pathExists (fs : FS) (path : String) : Bool := (fs path).isSome

/-- Writing a file (`open(path, "w"/"wb")` + write): replaces any previous content. -/
def FS.write (fs : FS) (path : String) (d : FileData) : FS :=
  fun p => if p = path then some d else fs p

/-- Exceptions raised by the two modules, one constructor per raise site category:
`fileNotFound` is `FileNotFoundError`; `configurationError`, `emptyResponse` and
`emptyAudio` are the `ValueError`s raised for a missing environment value, an
empty service response and empty audio bytes; `jsonDecodeError` is
`json.JSONDecodeError` (carrying the document that failed to parse, its `.doc`
attribute); `unicodeDecodeError` models `UnicodeDecodeError` from reading a
binary file as UTF-8 text (never exercised by the claims). -/
inductive Err where
  | fileNotFound (msg : String)
  | configurationError (msg : String)
  | emptyResponse (msg : String)
  | emptyAudio (msg : String)
  | jsonDecodeError (doc : String)
  | unicodeDecodeError
deriving Repr, DecidableEq

/-- Whether the exception is an instance of Python's `FileNotFoundError`. -/
def Err.isFileNotFound : Err → Bool
  | .fileNotFound _ => true
  | _ => false

/-- Whether the exception is an instance of Python's `ValueError`.  The raised
`ValueError`s are, and so are `json.JSONDecodeError` (a documented subclass of
`ValueError`) and `UnicodeDecodeError` (a subclass via `UnicodeError`). -/
def Err.isValueError : Err → Bool
  | .fileNotFound _ => false
  | _ => true

/-- Whether the exception is an instance of `json.JSONDecodeError`. -/
def Err.isJsonDecodeError : Err → Bool
  | .jsonDecodeError _ => true
  | _ => false

/-- Document attached to a `json.JSONDecodeError` (its `.doc`), empty otherwise. -/
def Err.doc : Err → String
  | .jsonDecodeError d => d
  | _ => ""

/-- Python `str(e)` for the raised exceptions.  The raise sites pass the message
directly; `json.JSONDecodeError`'s message names the failure position and never
contains the document text — the form below is the one CPython produces when the
document has no parseable leading value (position 0), which is the only case the
theorems evaluate. -/
def errStr : Err → String
  | .fileNotFound m => m
  | .configurationError m => m
  | .emptyResponse m => m
  | .emptyAudio m => m
  | .jsonDecodeError _ => "Expecting value: line 1 column 1 (char 0)"
  | .unicodeDecodeError => "invalid start byte"

/-! ## Service response envelope

The chat-completions response as the validation code inspects it: a list of
choices, each optionally holding a message, whose `content` may be absent or
empty.  The stub value is passed in explicitly where the source performs the
network call.
-/

/-- Message part of a chat-completions choice. -/
structure SvcMessage where
  content : Option String
deriving Repr, DecidableEq

/-- One element of the `choices` list; `message` is `none` when the API returned a
choice without a message (falsy in the source's `if not ... .message`). -/
structure SvcChoice where
  message : Option SvcMessage
deriving Repr, DecidableEq

/-- Response envelope of a chat-completions call. -/
structure SvcResponse where
  choices : List SvcChoice
deriving Repr, DecidableEq

/-! ## `analyze_stamp.py` -/

/-- MIME table of `analyze_stamp` (lines 124–130). -/
def mime_types : List (String × String) :=
  [(".jpg", "image/jpeg"), (".jpeg", "image/jpeg"), (".png", "image/png"),
   (".gif", "image/gif"), (".webp", "image/webp")]

/-- MIME type selected for a file suffix: lower-case the suffix, look it up in
`mime_types`, default to `image/jpeg` (`mime_types.get(image_ext, 'image/jpeg')`,
line 131). -/
def mimeTypeFor (suffix : String) : String :=
  (mime_types.lookup suffix.toLower).getD "image/jpeg"

/-- Outcome of `analyze_stamp`: the returned text or the raised exception, plus
whether execution reached the `client.chat.completions.create` call. -/
structure AnalyzeOutcome where
  result : Except Err String
  networkCalled : Bool
deriving Repr

/-- Model of `analyze_stamp(image_path)` (lines 95–178): check `OPENAI_API_KEY`, then
`OPENAI_MODEL`, then that the image file exists; encode the image and infer its
MIME type (request payload only, no effect on control flow); perform the network
call; validate the response envelope and return its content.  `resp` stands for
the service's response at the single network call site. -/
def analyze_stamp (env : Env) (fs : FS) (image_path : String) (resp : SvcResponse) :
    AnalyzeOutcome :=
  let api_key := env.openai_api_key
  let model := env.openai_model
  if ¬ truthy api_key then
    ⟨.error (.configurationError
      "OPENAI_API_KEY не найден в переменных окружения. Проверьте файл .env"), false⟩
  else if ¬ truthy model then
    ⟨.error (.configurationError
      "OPENAI_MODEL не найден в переменных окружения. Проверьте файл .env"), false⟩
  else if ¬ fs.pathExists image_path then
    ⟨.error (.fileNotFound ("Файл изображения не найден: " ++ image_path)), false⟩
  else
    match resp.choices with
    | [] => ⟨.error (.emptyResponse "API вернул пустой список choices"), true⟩
    | choice0 :: _ =>
      match choice0.message with
      | none => ⟨.error (.emptyResponse "API вернул ответ без message"), true⟩
      | some msg =>
        match msg.content with
        | none => ⟨.error (.emptyResponse "Модель вернула пустой ответ"), true⟩
        | some result =>
          if result = "" then
            ⟨.error (.emptyResponse "Модель вернула пустой ответ"), true⟩
          else ⟨.ok result, true⟩

/-! ## `json_to_voice.py` -/

/-- Model of `load_json_result(json_path)` (lines 35–49): existence check, then read the
file as UTF-8 text and parse it with `json.load`. -/
def load_json_result (fs : FS) (json_path : String) : Except Err Json :=
  if ¬ fs.pathExists json_path then
    .error (.fileNotFound ("JSON-файл не найден: " ++ json_path))
  else
    match fs json_path with
    | some (.text s) =>
      match json_loads s with
      | some j => .ok j
      | none => .error (.jsonDecodeError s)
    | some (.binary _) => .error .unicodeDecodeError
    | none => .error (.fileNotFound ("JSON-файл не найден: " ++ json_path))

/-- Whitespace stripped by Python's `str.strip()`: the ASCII whitespace code
points (space, tab, newline, carriage return, vertical tab, form feed; the
Unicode space characters Python also strips cannot occur in the claims'
narrations). -/
def isPyWs (c : Char) : Bool :=
  c.toNat = 32 || c.toNat = 9 || c.toNat = 10 || c.toNat = 13 ||
    c.toNat = 11 || c.toNat = 12

/-- Python's `str.strip()`: drop leading and trailing whitespace. -/
def pystrip (s : String) : String :=
  ⟨((s.data.dropWhile isPyWs).reverse.dropWhile isPyWs).reverse⟩

/-- Model of `generate_voice_script(stamp_data, api_key, model)` (lines 52–104): check the
two configuration values, serialize `stamp_data` into the prompt (payload only),
perform the text-generation call, validate the envelope and return the trimmed
content.  `resp` stands for the service's response at the call site. -/
def generate_voice_script (stamp_data : Json) (api_key model : Option String)
    (resp : SvcResponse) : Except Err String :=
  if ¬ truthy api_key then
    .error (.configurationError
      "OPENAI_API_KEY не найден в переменных окружения. Проверьте файл .env")
  else if ¬ truthy model then
    .error (.configurationError
      "OPENAI_MODEL не найден в переменных окружения. Проверьте файл .env")
  else
    match resp.choices with
    | [] => .error (.emptyResponse "API вернул пустой список choices")
    | choice0 :: _ =>
      match choice0.message with
      | none => .error (.emptyResponse "API вернул ответ без message")
      | some msg =>
        match msg.content with
        | none => .error (.emptyResponse "Модель вернула пустой текст для озвучки")
        | some voice_script =>
          if voice_script = "" then
            .error (.emptyResponse "Модель вернула пустой текст для озвучки")
          else .ok (pystrip voice_script)

/-- Model of `generate_audio(voice_script, api_key, tts_model, tts_voice,
tts_format)` (lines 107–147): check the three configuration strings, perform the speech call
(`voice_script` and `tts_format` are payload only) and return the audio bytes,
rejecting an empty payload.  `audio` stands for the bytes the service returns. -/
def generate_audio (voice_script : String) (api_key : Option String)
    (tts_model tts_voice tts_format : String) (audio : List Nat) :
    Except Err (List Nat) :=
  if ¬ truthy api_key then
    .error (.configurationError
      "OPENAI_API_KEY не найден в переменных окружения. Проверьте файл .env")
  else if tts_model = "" then
    .error (.configurationError
      "OPENAI_TTS_MODEL не найден в переменных окружения. Проверьте файл .env")
  else if tts_voice = "" then
    .error (.configurationError
      "OPENAI_TTS_VOICE не найден в переменных окружения. Проверьте файл .env")
  else if audio.isEmpty then .error (.emptyAudio "Не удалось сгенерировать аудио")
  else .ok audio

/-- Paths returned by a successful `json_to_voice` run. -/
structure VoiceFiles where
  script_file : String
  audio_file : String
deriving Repr, DecidableEq

/-- Model of `json_to_voice(json_path, output_dir)` (lines 150–198): read the five
environment variables (the three TTS ones with their defaults), check
`OPENAI_API_KEY` and `OPENAI_MODEL`, load the JSON file, generate the narration
script, generate the audio, then write `<output_dir>/voice_script.txt` and
`<output_dir>/result.<tts_format>` and return both paths.  `narrResp` and `audio`
stand for the two service responses. -/
def json_to_voice (env : Env) (fs : FS) (json_path : String) (output_dir : String)
    (narrResp : SvcResponse) (audio : List Nat) : Except Err (FS × VoiceFiles) :=
  let api_key := env.openai_api_key
  let model := env.openai_model
  let tts_model := env.openai_tts_model.getD "tts-1"
  let tts_voice := env.openai_tts_voice.getD "alloy"
  let tts_format := env.openai_tts_format.getD "mp3"
  if ¬ truthy api_key then
    .error (.configurationError
      "OPENAI_API_KEY не найден в переменных окружения. Проверьте файл .env")
  else if ¬ truthy model then
    .error (.configurationError
      "OPENAI_MODEL не найден в переменных окружения. Проверьте файл .env")
  else
    match load_json_result fs json_path with
    | .error e => .error e
    | .ok stamp_data =>
      match generate_voice_script stamp_data api_key model narrResp with
      | .error e => .error e
      | .ok voice_script =>
        match generate_audio voice_script api_key tts_model tts_voice tts_format audio with
        | .error e => .error e
        | .ok audio_data =>
          let script_file := output_dir ++ "/voice_script.txt"
          let audio_file := output_dir ++ "/result." ++ tts_format
          let fs1 := fs.write script_file (.text voice_script)
          let fs2 := fs1.write audio_file (.binary audio_data)
          .ok (fs2, ⟨script_file, audio_file⟩)

/-! ## Pipeline driver (`main` of `analyze_stamp.py`) -/

/-- Command-line arguments of `analyze_stamp.py`. -/
structure Args where
  image_path : String
  tts : Bool

/-- Observable outcome of a `main` run: process exit code, resulting filesystem,
and the lines printed to stderr. -/
structure RunResult where
  exitCode : Nat
  fs : FS
  stderrLines : List String

/-- The `except` chain of `main` (lines 235–247), in source order and with
Python's class semantics: `FileNotFoundError` first, then `ValueError` — which
also catches `json.JSONDecodeError`, a subclass of `ValueError`, so the dedicated
`json.JSONDecodeError` clause at lines 241–244 (which would print the raw model
response for diagnostics) is unreachable — then the generic `Exception` clause. -/
def mainHandler (e : Err) : List String :=
  if e.isFileNotFound then ["Ошибка: " ++ errStr e]
  else if e.isValueError then ["Ошибка конфигурации: " ++ errStr e]
  else if e.isJsonDecodeError then
    ["Ошибка: Не удалось распарсить JSON ответ от модели: " ++ errStr e,
     "Ответ модели: " ++ e.doc]
  else ["Неожиданная ошибка: " ++ errStr e]

/-- Model of `main()` of `analyze_stamp.py` (lines 181–247): run the analysis, parse its
text as JSON (`json.loads`), write the pretty-printed record to
`output/result.json`, and, under `--tts`, run `json_to_voice` on the written file
with any failure downgraded to a stderr warning.  An exception escaping the
`try` body goes through `mainHandler` and exits 1.  (Named `mainRun` because a
top-level Lean `main` must be an IO entry point.) -/
def mainRun (env : Env) (fs : FS) (args : Args) (analyzeResp narrResp : SvcResponse)
    (audio : List Nat) : RunResult :=
  match (analyze_stamp env fs args.image_path analyzeResp).result with
  | .error e => ⟨1, fs, mainHandler e⟩
  | .ok result =>
    match json_loads result with
    | none => ⟨1, fs, mainHandler (.jsonDecodeError result)⟩
    | some result_json =>
      let output_file := "output/result.json"
      let fs1 := fs.write output_file (.text (json_dumps result_json))
      if args.tts then
        match json_to_voice env fs1 output_file "output" narrResp audio with
        | .ok (fs2, _) => ⟨0, fs2, []⟩
        | .error e =>
          ⟨0, fs1, ["Предупреждение: Не удалось сгенерировать голосовое описание: "
            ++ errStr e]⟩
      else ⟨0, fs1, []⟩

/-! ## Character-level lemmas -/

/-- Unfolding `Char.ofNat` for code points below the surrogate range. -/
theorem char_toNat_ofNat {n : Nat} (h : n < 55296) : (Char.ofNat n).toNat = n := by
  have hv : n.isValidChar := Or.inl h
  rw [Char.ofNat, dif_pos hv]
  rfl

/-- Characters with different code points differ. -/
theorem char_ne_of_toNat_ne {c c' : Char} (h : c.toNat ≠ c'.toNat) : c ≠ c' :=
  fun he => h (by rw [he])

/-- Code point of a digit character. -/
theorem digitChar_toNat {d : Nat} (h : d < 10) : (digitChar d).toNat = 48 + d :=
  char_toNat_ofNat (by omega)

/-- Digit characters pass the digit test. -/
theorem isDigitChar_digitChar {d : Nat} (h : d < 10) :
    isDigitChar (digitChar d) = true := by
  simp only [isDigitChar, digitChar_toNat h]
  simp only [Bool.and_eq_true, decide_eq_true_eq]
  omega

/-- Digit characters decode to their digit. -/
theorem digitVal_digitChar {d : Nat} (h : d < 10) : digitVal (digitChar d) = d := by
  simp [digitVal, digitChar_toNat h]

/-- Code-point range of characters passing the digit test. -/
theorem isDigitChar_range {c : Char} (h : isDigitChar c = true) :
    48 ≤ c.toNat ∧ c.toNat ≤ 57 := by
  simpa [isDigitChar, Bool.and_eq_true, decide_eq_true_eq] using h

/-- Whitespace characters are among the four code points 32, 10, 9, 13. -/
theorem isWsChar_toNat {c : Char} (h : isWsChar c = true) :
    c.toNat = 32 ∨ c.toNat = 10 ∨ c.toNat = 9 ∨ c.toNat = 13 := by
  simp only [isWsChar, Bool.or_eq_true, decide_eq_true_eq] at h
  rcases h with ((h | h) | h) | h <;> subst h <;> simp

/-- Whitespace is neither a digit nor a decimal point. -/
theorem ws_numStop {c : Char} (h : isWsChar c = true) :
    isDigitChar c = false ∧ c ≠ '.' := by
  have ht := isWsChar_toNat h
  constructor
  · cases hd : isDigitChar c with
    | false => rfl
    | true =>
      exfalso
      have := isDigitChar_range hd
      rcases ht with h' | h' | h' | h' <;> omega
  · intro he
    rw [he] at h
    exact absurd h (by decide)

/-! ## Whitespace-skipping lemmas -/

/-- Lemma: `skipWs` drops a leading whitespace character. -/
theorem skipWs_cons_ws {c : Char} (h : isWsChar c = true) (l : List Char) :
    skipWs (c :: l) = skipWs l := by
  simp [skipWs, h]

/-- Lemma: `skipWs` stops at a non-whitespace character. -/
theorem skipWs_cons_not_ws {c : Char} (h : isWsChar c = false) (l : List Char) :
    skipWs (c :: l) = c :: l := by
  simp [skipWs, h]

/-- Lemma: `skipWs` drops any all-whitespace prefix. -/
theorem skipWs_append {ws : List Char} (h : ∀ c ∈ ws, isWsChar c = true)
    (l : List Char) : skipWs (ws ++ l) = skipWs l := by
  induction ws with
  | nil => rfl
  | cons c cs ih =>
    rw [List.cons_append, skipWs_cons_ws (h c (by simp))]
    exact ih (fun c' hc' => h c' (by simp [hc']))

/-- Indentation is all whitespace. -/
theorem indentChars_ws {level : Nat} : ∀ c ∈ indentChars level, isWsChar c = true := by
  intro c hc
  have hc' : c = ' ' := List.eq_of_mem_replicate (by simpa [indentChars] using hc)
  rw [hc']
  decide

/-- Lemma: `parseValue` ignores an all-whitespace prefix. -/
theorem parseValue_wsLead (fuel : Nat) {ws : List Char}
    (h : ∀ c ∈ ws, isWsChar c = true) (l : List Char) :
    parseValue fuel (ws ++ l) = parseValue fuel l := by
  cases fuel with
  | zero => rfl
  | succ fuel => simp only [parseValue, skipWs_append h]

/-! ## String-literal round trip -/

/-- Lemma: `hexVal` inverts `hexDigitChar` on hex digit values. -/
theorem hexVal_hexDigitChar {d : Nat} (h : d < 16) : hexVal (hexDigitChar d) = some d := by
  by_cases h10 : d < 10
  · have ht : (hexDigitChar d).toNat = 48 + d := by
      rw [hexDigitChar, if_pos h10]
      exact digitChar_toNat h10
    simp only [hexVal, ht]
    rw [if_pos (by simp only [Bool.and_eq_true, decide_eq_true_eq]; omega)]
    simp
  · have ht : (hexDigitChar d).toNat = 87 + d := by
      rw [hexDigitChar, if_neg h10]
      exact char_toNat_ofNat (by omega)
    simp only [hexVal, ht]
    rw [if_neg (by simp only [Bool.and_eq_true, decide_eq_true_eq]; omega)]
    rw [if_pos (by simp only [Bool.and_eq_true, decide_eq_true_eq]; omega)]
    simp

/-- The string parser closes on an unescaped quote. -/
theorem parseStringBody_quote (acc rest : List Char) :
    parseStringBody acc ('"' :: rest) = some (⟨acc.reverse⟩, rest) := by
  rw [parseStringBody.eq_def]
  simp

/-- The string parser copies a raw (unescaped, non-quote) character. -/
theorem parseStringBody_raw {c : Char} (h1 : c ≠ '"') (h2 : c ≠ '\\')
    (acc cs : List Char) :
    parseStringBody acc (c :: cs) = parseStringBody (c :: acc) cs := by
  rw [parseStringBody.eq_def]
  simp [h1, h2]

/-- The string parser decodes a named escape. -/
theorem parseStringBody_named {e c2 : Char} (he : e ≠ 'u') (hu : unescape e = some c2)
    (acc cs : List Char) :
    parseStringBody acc ('\\' :: e :: cs) = parseStringBody (c2 :: acc) cs := by
  rw [parseStringBody.eq_def]
  simp [he, hu]

/-- The string parser decodes a `\uXXXX` escape. -/
theorem parseStringBody_hex {h1 h2 h3 h4 : Char} {a b c2 d : Nat}
    (hv1 : hexVal h1 = some a) (hv2 : hexVal h2 = some b)
    (hv3 : hexVal h3 = some c2) (hv4 : hexVal h4 = some d) (acc cs : List Char) :
    parseStringBody acc ('\\' :: 'u' :: h1 :: h2 :: h3 :: h4 :: cs) =
      parseStringBody (Char.ofNat (((a * 16 + b) * 16 + c2) * 16 + d) :: acc) cs := by
  rw [parseStringBody.eq_def]
  simp [hv1, hv2, hv3, hv4]

/-- Parsing inverts escaping, character by character: the parser applied to the
escaped body followed by the closing quote returns the original characters
appended to the accumulator. -/
theorem parseStringBody_escape (l : List Char) : ∀ acc rest : List Char,
    parseStringBody acc (l.flatMap escapeChar ++ '"' :: rest) =
      some (⟨acc.reverse ++ l⟩, rest) := by
  induction l with
  | nil =>
    intro acc rest
    rw [List.flatMap_nil, List.nil_append, parseStringBody_quote]
    simp
  | cons c l ih =>
    intro acc rest
    rw [List.flatMap_cons, List.append_assoc]
    have hstep : parseStringBody (c :: acc) (l.flatMap escapeChar ++ '"' :: rest) =
        some (⟨acc.reverse ++ c :: l⟩, rest) := by
      rw [ih (c :: acc) rest]
      simp [List.reverse_cons, List.append_assoc]
    by_cases hq : c = '"'
    · subst hq
      rw [show escapeChar '"' = ['\\', '"'] from rfl]
      rw [List.cons_append, List.cons_append, List.nil_append,
        parseStringBody_named (by decide) (show unescape '"' = some '"' from rfl)]
      exact hstep
    · by_cases hb : c = '\\'
      · subst hb
        rw [show escapeChar '\\' = ['\\', '\\'] from rfl]
        rw [List.cons_append, List.cons_append, List.nil_append,
          parseStringBody_named (by decide) (show unescape '\\' = some '\\' from rfl)]
        exact hstep
      · by_cases hn : c = '\n'
        · subst hn
          rw [show escapeChar '\n' = ['\\', 'n'] from rfl]
          rw [List.cons_append, List.cons_append, List.nil_append,
            parseStringBody_named (by decide) (show unescape 'n' = some '\n' from rfl)]
          exact hstep
        · by_cases ht : c = '\t'
          · subst ht
            rw [show escapeChar '\t' = ['\\', 't'] from rfl]
            rw [List.cons_append, List.cons_append, List.nil_append,
              parseStringBody_named (by decide) (show unescape 't' = some '\t' from rfl)]
            exact hstep
          · by_cases hr : c = '\r'
            · subst hr
              rw [show escapeChar '\r' = ['\\', 'r'] from rfl]
              rw [List.cons_append, List.cons_append, List.nil_append,
                parseStringBody_named (by decide)
                  (show unescape 'r' = some '\r' from rfl)]
              exact hstep
            · by_cases h8 : c.toNat = 8
              · have hc : c = Char.ofNat 8 := by rw [← Char.ofNat_toNat c, h8]
                subst hc
                rw [show escapeChar (Char.ofNat 8) = ['\\', 'b'] from rfl]
                rw [List.cons_append, List.cons_append, List.nil_append,
                  parseStringBody_named (by decide)
                    (show unescape 'b' = some (Char.ofNat 8) from rfl)]
                exact hstep
              · by_cases h12 : c.toNat = 12
                · have hc : c = Char.ofNat 12 := by rw [← Char.ofNat_toNat c, h12]
                  subst hc
                  rw [show escapeChar (Char.ofNat 12) = ['\\', 'f'] from rfl]
                  rw [List.cons_append, List.cons_append, List.nil_append,
                    parseStringBody_named (by decide)
                      (show unescape 'f' = some (Char.ofNat 12) from rfl)]
                  exact hstep
                · by_cases h32 : c.toNat < 32
                  · rw [show escapeChar c =
                        ['\\', 'u', '0', '0', hexDigitChar (c.toNat / 16),
                          hexDigitChar (c.toNat % 16)] from by
                      rw [escapeChar, if_neg hq, if_neg hb, if_neg hn, if_neg ht,
                        if_neg hr, if_neg h8, if_neg h12, if_pos h32]]
                    rw [List.cons_append, List.cons_append, List.cons_append,
                      List.cons_append, List.cons_append, List.cons_append,
                      List.nil_append,
                      parseStringBody_hex (show hexVal '0' = some 0 from rfl)
                        (show hexVal '0' = some 0 from rfl)
                        (hexVal_hexDigitChar (show c.toNat / 16 < 16 by omega))
                        (hexVal_hexDigitChar (show c.toNat % 16 < 16 by omega))]
                    rw [show ((0 * 16 + 0) * 16 + c.toNat / 16) * 16 + c.toNat % 16 =
                        c.toNat by omega, Char.ofNat_toNat]
                    exact hstep
                  · rw [show escapeChar c = [c] from by
                      rw [escapeChar, if_neg hq, if_neg hb, if_neg hn, if_neg ht,
                        if_neg hr, if_neg h8, if_neg h12, if_neg h32]]
                    rw [List.cons_append, List.nil_append,
                      parseStringBody_raw hq hb]
                    exact hstep

/-- Parsing inverts `escapeStringChars` after its opening quote is consumed. -/
theorem parseStringBody_escapeString (s : String) (rest : List Char) :
    parseStringBody [] (s.data.flatMap escapeChar ++ '"' :: rest) = some (s, rest) := by
  rw [parseStringBody_escape]
  simp

/-! ## Number round trip -/

/-- A list on which number parsing must stop: empty, or starting with a character
that is neither a digit nor a decimal point.  Every separator following a value in
`dumpsChars` output satisfies this. -/
def NumStop (rest : List Char) : Prop :=
  rest = [] ∨ ∃ c cs, rest = c :: cs ∧ isDigitChar c = false ∧ c ≠ '.'

/-- A digit run stops at a non-digit (or at the end). -/
theorem parseDigitsAux_stop (acc : Nat) {rest : List Char}
    (h : rest = [] ∨ ∃ c cs, rest = c :: cs ∧ isDigitChar c = false) :
    parseDigitsAux acc rest = (acc, rest) := by
  rcases h with h | ⟨c, cs, rfl, hc⟩
  · subst h
    rfl
  · simp [parseDigitsAux, hc]

/-- Accumulating digit characters folds their values into the accumulator. -/
theorem parseDigitsAux_digits (ds : List Nat) : ∀ (acc : Nat) (rest : List Char),
    (∀ d ∈ ds, d < 10) →
    parseDigitsAux acc (ds.map digitChar ++ rest) =
      parseDigitsAux (ds.foldl (fun a d => a * 10 + d) acc) rest := by
  induction ds with
  | nil => intro acc rest _; rfl
  | cons d ds ih =>
    intro acc rest h
    have hd : d < 10 := h d (by simp)
    rw [List.map_cons, List.cons_append, parseDigitsAux,
      if_pos (isDigitChar_digitChar hd), digitVal_digitChar hd,
      ih _ _ (fun d' hd' => h d' (by simp [hd'])), List.foldl_cons]

/-- Folding most-significant-first over reversed little-endian digits recovers the
number. -/
theorem foldl_reverse_digits (L : List Nat) : ∀ acc : Nat,
    L.reverse.foldl (fun a d => a * 10 + d) acc =
      acc * 10 ^ L.length + Nat.ofDigits 10 L := by
  induction L with
  | nil => intro acc; simp [Nat.ofDigits]
  | cons d L ih =>
    intro acc
    rw [List.reverse_cons, List.foldl_append, ih acc]
    simp only [List.foldl_cons, List.foldl_nil, Nat.ofDigits_cons, List.length_cons]
    rw [pow_succ]
    ring

/-- Every digit of a base-10 expansion is below 10. -/
theorem digits_lt_ten {n d : Nat} (h : d ∈ Nat.digits 10 n) : d < 10 :=
  Nat.digits_lt_base (by norm_num) h

/-- Lemma: `parseNatChars` inverts `natChars` when the remainder does not begin with a
digit. -/
theorem parseNatChars_natChars (n : Nat) {rest : List Char}
    (h : rest = [] ∨ ∃ c cs, rest = c :: cs ∧ isDigitChar c = false) :
    parseNatChars (natChars n ++ rest) = some (n, rest) := by
  by_cases h0 : n = 0
  · subst h0
    rw [natChars, if_pos rfl, List.cons_append, parseNatChars,
      if_pos (by decide)]
    rw [List.nil_append, show digitVal '0' = 0 from rfl, parseDigitsAux_stop 0 h]
  · have hne : (Nat.digits 10 n).reverse ≠ [] := by
      simp [Nat.digits_ne_nil_iff_ne_zero.mpr h0]
    obtain ⟨e, es, hL⟩ := List.exists_cons_of_ne_nil hne
    have hmem : ∀ d ∈ (Nat.digits 10 n).reverse, d < 10 := by
      intro d hd
      exact digits_lt_ten (List.mem_reverse.mp hd)
    have he : e < 10 := hmem e (by rw [hL]; simp)
    rw [natChars, if_neg h0, hL, List.map_cons, List.cons_append, parseNatChars,
      if_pos (isDigitChar_digitChar he), digitVal_digitChar he,
      parseDigitsAux_digits es e rest
        (fun d hd => hmem d (by rw [hL]; simp [hd])),
      parseDigitsAux_stop _ h]
    have hfold : es.foldl (fun a d => a * 10 + d) e =
        (Nat.digits 10 n).reverse.foldl (fun a d => a * 10 + d) 0 := by
      rw [hL, List.foldl_cons]
      norm_num
    rw [hfold, foldl_reverse_digits, Nat.ofDigits_digits]
    norm_num

/-- A fraction-digit run stops at a non-digit (or at the end). -/
theorem parseFracAux_stop (acc : List Nat) {rest : List Char}
    (h : rest = [] ∨ ∃ c cs, rest = c :: cs ∧ isDigitChar c = false) :
    parseFracAux acc rest = (acc.reverse, rest) := by
  rcases h with h | ⟨c, cs, rfl, hc⟩
  · subst h
    rfl
  · simp [parseFracAux, hc]

/-- Collecting fraction digit characters appends their values to the accumulator. -/
theorem parseFracAux_digits (ds : List Nat) : ∀ (acc : List Nat) (rest : List Char),
    (∀ d ∈ ds, d < 10) →
    (rest = [] ∨ ∃ c cs, rest = c :: cs ∧ isDigitChar c = false) →
    parseFracAux acc (ds.map digitChar ++ rest) = (acc.reverse ++ ds, rest) := by
  induction ds with
  | nil =>
    intro acc rest _ hstop
    rw [List.map_nil, List.nil_append, parseFracAux_stop acc hstop, List.append_nil]
  | cons d ds ih =>
    intro acc rest h hstop
    have hd : d < 10 := h d (by simp)
    rw [List.map_cons, List.cons_append, parseFracAux,
      if_pos (isDigitChar_digitChar hd), digitVal_digitChar hd,
      ih (d :: acc) rest (fun d' hd' => h d' (by simp [hd'])) hstop]
    simp [List.reverse_cons, List.append_assoc]

/-- Lemma: `parseNumAfterSign` inverts the digit part of `numChars`. -/
theorem parseNumAfterSign_numChars (neg : Bool) (ip : Nat) (frac : List Nat)
    (hfr : ∀ d ∈ frac, d < 10) {rest : List Char} (hstop : NumStop rest) :
    parseNumAfterSign neg
        (natChars ip ++
          (if frac.isEmpty then [] else '.' :: frac.map digitChar) ++ rest) =
      some (.num neg ip frac, rest) := by
  have hdigitstop : rest = [] ∨ ∃ c cs, rest = c :: cs ∧ isDigitChar c = false := by
    rcases hstop with h | ⟨c, cs, hr, hc, _⟩
    · exact Or.inl h
    · exact Or.inr ⟨c, cs, hr, hc⟩
  by_cases hf : frac.isEmpty
  · rw [if_pos hf, List.append_nil]
    rw [parseNumAfterSign, parseNatChars_natChars ip hdigitstop]
    have hfe : frac = [] := by simpa [List.isEmpty_iff] using hf
    subst hfe
    rcases hstop with h | ⟨c, cs, hr, _, hdot⟩
    · subst h
      rfl
    · subst hr
      simp [hdot]
  · have hfe : frac ≠ [] := by simpa [List.isEmpty_iff] using hf
    obtain ⟨f, frs, rfl⟩ := List.exists_cons_of_ne_nil hfe
    rw [if_neg hf, List.append_assoc, List.cons_append]
    rw [parseNumAfterSign, parseNatChars_natChars ip (by
      refine Or.inr ⟨'.', _, rfl, by decide⟩)]
    have hfd : f < 10 := hfr f (by simp)
    have hpf := parseFracAux_digits (f :: frs) [] rest hfr hdigitstop
    simp only [List.map_cons, List.cons_append, List.reverse_nil,
      List.nil_append] at hpf
    simp only [List.map_cons, List.cons_append, reduceIte,
      isDigitChar_digitChar hfd, hpf]

/-! ## Head shape of printed values -/

/-- Digit characters are not whitespace and not closing brackets. -/
theorem digit_head_props {d : Nat} (h : d < 10) :
    isWsChar (digitChar d) = false ∧ digitChar d ≠ ']' ∧ digitChar d ≠ rbrace := by
  have ht := digitChar_toNat h
  refine ⟨?_, ?_, ?_⟩
  · cases hw : isWsChar (digitChar d) with
    | false => rfl
    | true =>
      exfalso
      rcases isWsChar_toNat hw with h' | h' | h' | h' <;> omega
  · exact char_ne_of_toNat_ne (by
      rw [ht, show (']' : Char).toNat = 93 from rfl]
      omega)
  · exact char_ne_of_toNat_ne (by
      rw [ht, show rbrace.toNat = 125 from rfl]
      omega)

/-- The first character of a printed value is never whitespace and never a closing
bracket, so the parser's branch tests can see it. -/
theorem dumps_head (level : Nat) (j : Json) :
    ∃ c cs, dumpsChars level j = c :: cs ∧
      isWsChar c = false ∧ c ≠ ']' ∧ c ≠ rbrace := by
  cases j with
  | null =>
    refine ⟨'n', _, rfl, ?_, ?_, ?_⟩ <;> decide
  | bool b =>
    cases b with
    | true =>
      refine ⟨'t', _, rfl, ?_, ?_, ?_⟩ <;> decide
    | false =>
      refine ⟨'f', _, rfl, ?_, ?_, ?_⟩ <;> decide
  | num neg ip frac =>
    cases neg with
    | true => exact ⟨'-', _, rfl, by decide, by decide, by decide⟩
    | false =>
      by_cases h0 : ip = 0
      · subst h0
        exact ⟨'0', _, rfl, by decide, by decide, by decide⟩
      · have hne : (Nat.digits 10 ip).reverse ≠ [] := by
          simp [Nat.digits_ne_nil_iff_ne_zero.mpr h0]
        obtain ⟨e, es, hL⟩ := List.exists_cons_of_ne_nil hne
        have he : e < 10 := digits_lt_ten (List.mem_reverse.mp (by rw [hL]; simp))
        obtain ⟨hw, hb, hbr⟩ := digit_head_props he
        have hd : dumpsChars level (.num false ip frac) =
            digitChar e :: (es.map digitChar ++
              (if frac.isEmpty then [] else '.' :: frac.map digitChar)) := by
          show numChars false ip frac = _
          rw [numChars, natChars, if_neg h0, hL]
          simp
        exact ⟨digitChar e, _, hd, hw, hb, hbr⟩
  | str s =>
    refine ⟨'"', _, rfl, ?_, ?_, ?_⟩ <;> decide
  | arr xs =>
    cases xs with
    | nil =>
      refine ⟨'[', _, rfl, ?_, ?_, ?_⟩ <;> decide
    | cons x xs =>
      refine ⟨'[', _, rfl, ?_, ?_, ?_⟩ <;> decide
  | obj fs =>
    cases fs with
    | nil =>
      refine ⟨lbrace, _, rfl, ?_, ?_, ?_⟩ <;> decide
    | cons k v fs =>
      refine ⟨lbrace, _, rfl, ?_, ?_, ?_⟩ <;> decide

/-- Lemma: `NumStop` holds for an all-whitespace prefix followed by a non-numeric
character. -/
theorem numStop_ws_brk {mid : List Char} (hmid : ∀ c ∈ mid, isWsChar c = true)
    {b : Char} (hb : isDigitChar b = false) (hbd : b ≠ '.') (rest : List Char) :
    NumStop (mid ++ b :: rest) := by
  cases mid with
  | nil => exact Or.inr ⟨b, rest, rfl, hb, hbd⟩
  | cons m ms =>
    have hm := ws_numStop (hmid m (by simp))
    exact Or.inr ⟨m, ms ++ b :: rest, by simp, hm.1, hm.2⟩

/-- Lemma: `NumStop` holds for a list starting with a comma. -/
theorem numStop_comma (cs : List Char) : NumStop (',' :: cs) :=
  Or.inr ⟨',', cs, rfl, by decide, by decide⟩

/-- Positivity of the fuel requirement. -/
theorem jsize_pos (j : Json) : 1 ≤ jsize j := by
  cases j <;> simp [jsize]

/-- Positivity of the fuel requirement for a non-empty item list. -/
theorem jsizeItems_pos (x : Json) (xs : JsonList) :
    1 ≤ jsizeItems (.cons x xs) := by
  simp [jsizeItems]

/-- Positivity of the fuel requirement for a non-empty field list. -/
theorem jsizeFields_pos (k : String) (v : Json) (fs : JsonFields) :
    1 ≤ jsizeFields (.cons k v fs) := by
  simp [jsizeFields]

/-- After whitespace, a printed non-empty item list starts with the head of its
first value, which is not whitespace and not a closing bracket. -/
theorem skipWs_dumpsItems_head (level : Nat) (x : Json) (xs : JsonList)
    (W : List Char) :
    ∃ c t, skipWs (dumpsItemsChars level (.cons x xs) ++ W) = c :: t ∧
      isWsChar c = false ∧ c ≠ ']' ∧ c ≠ rbrace := by
  obtain ⟨c0, t0, hd0, hw0, hb0, hbr0⟩ := dumps_head level x
  have key : ∀ R : List Char,
      skipWs (indentChars level ++ (dumpsChars level x ++ R)) = c0 :: (t0 ++ R) := by
    intro R
    rw [skipWs_append indentChars_ws, hd0, List.cons_append,
      skipWs_cons_not_ws hw0]
  cases xs with
  | nil =>
    refine ⟨c0, t0 ++ W, ?_, hw0, hb0, hbr0⟩
    have harr : dumpsItemsChars level (.cons x .nil) ++ W =
        indentChars level ++ (dumpsChars level x ++ W) := by
      simp [dumpsItemsChars, List.append_assoc]
    rw [harr, key]
  | cons y ys =>
    refine ⟨c0, t0 ++ (',' :: '\n' ::
      (dumpsItemsChars level (.cons y ys) ++ W)), ?_, hw0, hb0, hbr0⟩
    have harr : dumpsItemsChars level (.cons x (.cons y ys)) ++ W =
        indentChars level ++ (dumpsChars level x ++
          (',' :: '\n' :: (dumpsItemsChars level (.cons y ys) ++ W))) := by
      simp [dumpsItemsChars, List.append_assoc]
    rw [harr, key]

/-- After indentation, a printed field list begins with the opening quote of its
first key; `skipWs` lands exactly there. -/
theorem skipWs_ind_esc (level : Nat) (k : String) (R : List Char) :
    skipWs (indentChars level ++ (escapeStringChars k ++ R)) =
      '"' :: (k.data.flatMap escapeChar ++ ('"' :: R)) := by
  rw [skipWs_append indentChars_ws, escapeStringChars, List.cons_append,
    List.cons_append, skipWs_cons_not_ws (show isWsChar '"' = false by decide),
    List.append_assoc]
  rfl

/-- After whitespace, a printed non-empty field list starts with the opening quote
of its first key. -/
theorem skipWs_dumpsFields_head (level : Nat) (k : String) (v : Json)
    (fs : JsonFields) (W : List Char) :
    ∃ t, skipWs (dumpsFieldsChars level (.cons k v fs) ++ W) = '"' :: t := by
  cases fs with
  | nil =>
    refine ⟨k.data.flatMap escapeChar ++
      ('"' :: (':' :: ' ' :: (dumpsChars level v ++ W))), ?_⟩
    have harr : dumpsFieldsChars level (.cons k v .nil) ++ W =
        indentChars level ++ (escapeStringChars k ++
          (':' :: ' ' :: (dumpsChars level v ++ W))) := by
      simp [dumpsFieldsChars, List.append_assoc]
    rw [harr, skipWs_ind_esc]
  | cons k2 v2 fs2 =>
    refine ⟨k.data.flatMap escapeChar ++
      ('"' :: (':' :: ' ' :: (dumpsChars level v ++
        (',' :: '\n' :: (dumpsFieldsChars level (.cons k2 v2 fs2) ++ W))))), ?_⟩
    have harr : dumpsFieldsChars level (.cons k v (.cons k2 v2 fs2)) ++ W =
        indentChars level ++ (escapeStringChars k ++
          (':' :: ' ' :: (dumpsChars level v ++
            (',' :: '\n' :: (dumpsFieldsChars level (.cons k2 v2 fs2) ++ W))))) := by
      simp [dumpsFieldsChars, List.append_assoc]
    rw [harr, skipWs_ind_esc]

/-! ## One-step characterizations of the fuelled parser -/

theorem parseValue_quote_step (fuel : Nat) {cs r : List Char} {s : String}
    (h : parseStringBody [] cs = some (s, r)) :
    parseValue (fuel + 1) ('"' :: cs) = some (.str s, r) := by
  simp only [parseValue]
  rw [skipWs_cons_not_ws (show isWsChar '"' = false by decide)]
  simp only []
  rw [h]
  simp

theorem parseValue_minus_step (fuel : Nat) (cs : List Char) :
    parseValue (fuel + 1) ('-' :: cs) = parseNumAfterSign true cs := by
  simp only [parseValue]
  rw [skipWs_cons_not_ws (show isWsChar '-' = false by decide)]
  simp

theorem parseValue_digit_step (fuel : Nat) {c : Char} (h : isDigitChar c = true)
    (cs : List Char) :
    parseValue (fuel + 1) (c :: cs) = parseNumAfterSign false (c :: cs) := by
  obtain ⟨hlo, hhi⟩ := isDigitChar_range h
  have hws : isWsChar c = false := by
    cases hw : isWsChar c with
    | false => rfl
    | true =>
      exfalso
      rcases isWsChar_toNat hw with h' | h' | h' | h' <;> omega
  simp only [parseValue]
  rw [skipWs_cons_not_ws hws]
  simp only []
  rw [if_neg (char_ne_of_toNat_ne (show c.toNat ≠ ('n' : Char).toNat by
      rw [show ('n' : Char).toNat = 110 from rfl]; omega)),
    if_neg (char_ne_of_toNat_ne (show c.toNat ≠ ('t' : Char).toNat by
      rw [show ('t' : Char).toNat = 116 from rfl]; omega)),
    if_neg (char_ne_of_toNat_ne (show c.toNat ≠ ('f' : Char).toNat by
      rw [show ('f' : Char).toNat = 102 from rfl]; omega)),
    if_neg (char_ne_of_toNat_ne (show c.toNat ≠ ('"' : Char).toNat by
      rw [show ('"' : Char).toNat = 34 from rfl]; omega)),
    if_neg (char_ne_of_toNat_ne (show c.toNat ≠ ('-' : Char).toNat by
      rw [show ('-' : Char).toNat = 45 from rfl]; omega)),
    if_pos h]

theorem parseValue_lbrack_step (fuel : Nat) {cs t0 r : List Char} {c0 : Char}
    {xs : JsonList} (hsk : skipWs cs = c0 :: t0) (hb : c0 ≠ ']')
    (hit : parseItems fuel cs = some (xs, r)) :
    parseValue (fuel + 1) ('[' :: cs) = some (.arr xs, r) := by
  simp only [parseValue]
  rw [skipWs_cons_not_ws (show isWsChar '[' = false by decide)]
  simp only []
  rw [if_neg (show ¬(isDigitChar '[' = true) by decide), if_pos trivial, hsk]
  simp only []
  rw [if_neg hb, hit]
  simp

theorem parseValue_lbrace_step (fuel : Nat) {cs t0 r : List Char}
    {fs : JsonFields} (hsk : skipWs cs = '"' :: t0)
    (hfl : parseFields fuel cs = some (fs, r)) :
    parseValue (fuel + 1) (lbrace :: cs) = some (.obj fs, r) := by
  simp only [parseValue]
  rw [skipWs_cons_not_ws (show isWsChar lbrace = false by decide)]
  simp only []
  rw [if_neg (show ¬lbrace = 'n' by decide),
    if_neg (show ¬lbrace = 't' by decide),
    if_neg (show ¬lbrace = 'f' by decide),
    if_neg (show ¬lbrace = '"' by decide),
    if_neg (show ¬lbrace = '-' by decide),
    if_neg (show ¬(isDigitChar lbrace = true) by decide),
    if_neg (show ¬lbrace = '[' by decide),
    if_pos trivial, hsk]
  simp only []
  rw [if_neg (show ¬('"' : Char) = rbrace by decide), hfl]

theorem parseItems_last_step (fuel : Nat) {l r rest2 : List Char} {x : Json}
    (h1 : parseValue fuel l = some (x, r)) (h2 : skipWs r = ']' :: rest2) :
    parseItems (fuel + 1) l = some (.cons x .nil, rest2) := by
  simp only [parseItems]
  rw [h1]
  simp only []
  rw [h2]
  simp

theorem parseItems_cons_step (fuel : Nat) {l r r2 rest3 : List Char} {x : Json}
    {xs : JsonList} (h1 : parseValue fuel l = some (x, r))
    (h2 : skipWs r = ',' :: r2) (h3 : parseItems fuel r2 = some (xs, rest3)) :
    parseItems (fuel + 1) l = some (.cons x xs, rest3) := by
  simp only [parseItems]
  rw [h1]
  simp only []
  rw [h2]
  simp only []
  rw [if_pos trivial, h3]

theorem parseFields_last_step (fuel : Nat) {l cs r1 r2 r3 rest2 : List Char}
    {k : String} {v : Json} (h0 : skipWs l = '"' :: cs)
    (h1 : parseStringBody [] cs = some (k, r1)) (h2 : skipWs r1 = ':' :: r2)
    (h3 : parseValue fuel r2 = some (v, r3)) (h4 : skipWs r3 = rbrace :: rest2) :
    parseFields (fuel + 1) l = some (.cons k v .nil, rest2) := by
  simp only [parseFields]
  rw [h0]
  simp only []
  rw [if_pos trivial, h1]
  simp only []
  rw [h2]
  simp only []
  rw [if_pos trivial, h3]
  simp only []
  rw [h4]
  simp only []
  rw [if_neg (show ¬rbrace = ',' by decide), if_pos trivial]

theorem parseFields_cons_step (fuel : Nat) {l cs r1 r2 r3 r4 rest3 : List Char}
    {k : String} {v : Json} {fs : JsonFields} (h0 : skipWs l = '"' :: cs)
    (h1 : parseStringBody [] cs = some (k, r1)) (h2 : skipWs r1 = ':' :: r2)
    (h3 : parseValue fuel r2 = some (v, r3)) (h4 : skipWs r3 = ',' :: r4)
    (h5 : parseFields fuel r4 = some (fs, rest3)) :
    parseFields (fuel + 1) l = some (.cons k v fs, rest3) := by
  simp only [parseFields]
  rw [h0]
  simp only []
  rw [if_pos trivial, h1]
  simp only []
  rw [h2]
  simp only []
  rw [if_pos trivial, h3]
  simp only []
  rw [h4]
  simp only []
  rw [if_pos trivial, h5]

/-- The singleton space list is all whitespace. -/
theorem singleton_space_ws : ∀ c ∈ ([' '] : List Char), isWsChar c = true := by
  intro c hc
  rw [List.mem_singleton] at hc
  subst hc
  decide

/-! ## Round trip: parsing inverts printing -/

mutual

theorem parseValue_dumps (j : Json) (level : Nat) (rest : List Char) (fuel : Nat)
    (hwf : j.wf = true) (hsz : jsize j ≤ fuel) (hstop : NumStop rest) :
    parseValue fuel (dumpsChars level j ++ rest) = some (j, rest) := by
  obtain ⟨fuel, rfl⟩ : ∃ f, fuel = f + 1 := ⟨fuel - 1, by
    have := jsize_pos j
    omega⟩
  cases j with
  | null => rfl
  | bool b =>
    cases b with
    | true => rfl
    | false => rfl
  | str s =>
    have goal0 : dumpsChars level (.str s) ++ rest =
        '"' :: (s.data.flatMap escapeChar ++ ('"' :: rest)) := by
      show escapeStringChars s ++ rest = _
      rw [escapeStringChars]
      simp only [List.cons_append, List.append_assoc, List.nil_append]
    rw [goal0]
    exact parseValue_quote_step fuel (parseStringBody_escapeString s rest)
  | num neg ip frac =>
    have hfr' : ∀ d ∈ frac, d < 10 := by
      simp only [Json.wf, List.all_eq_true, decide_eq_true_eq] at hwf
      exact hwf
    have hnum := parseNumAfterSign_numChars neg ip frac hfr' hstop
    cases neg with
    | true =>
      have goal0 : dumpsChars level (.num true ip frac) ++ rest =
          '-' :: (natChars ip ++
            ((if frac.isEmpty then [] else '.' :: frac.map digitChar) ++ rest)) := by
        show numChars true ip frac ++ rest = _
        rw [numChars]
        simp only [reduceIte, List.cons_append, List.append_assoc, List.nil_append]
      rw [goal0, parseValue_minus_step]
      simp only [List.append_assoc] at hnum
      exact hnum
    | false =>
      by_cases h0 : ip = 0
      · subst h0
        have goal0 : dumpsChars level (.num false 0 frac) ++ rest =
            '0' :: ((if frac.isEmpty then [] else '.' :: frac.map digitChar) ++
              rest) := by
          show numChars false 0 frac ++ rest = _
          rw [numChars, natChars, if_pos rfl]
          simp only [Bool.false_eq_true, if_false, reduceIte, List.cons_append,
            List.append_assoc, List.nil_append]
        rw [goal0, parseValue_digit_step fuel (show isDigitChar '0' = true from rfl)]
        simp only [List.append_assoc] at hnum
        exact hnum
      · have hne : (Nat.digits 10 ip).reverse ≠ [] := by
          simp [Nat.digits_ne_nil_iff_ne_zero.mpr h0]
        obtain ⟨e, es, hL⟩ := List.exists_cons_of_ne_nil hne
        have he : e < 10 := digits_lt_ten (List.mem_reverse.mp (by rw [hL]; simp))
        have hnat : natChars ip = digitChar e :: es.map digitChar := by
          rw [natChars, if_neg h0, hL]
          rfl
        have goal0 : dumpsChars level (.num false ip frac) ++ rest =
            digitChar e :: (es.map digitChar ++
              ((if frac.isEmpty then [] else '.' :: frac.map digitChar) ++ rest)) := by
          show numChars false ip frac ++ rest = _
          rw [numChars, hnat]
          simp only [Bool.false_eq_true, if_false, reduceIte, List.cons_append,
            List.append_assoc, List.nil_append]
        rw [goal0, parseValue_digit_step fuel (isDigitChar_digitChar he)]
        rw [hnat] at hnum
        simp only [List.cons_append, List.append_assoc] at hnum
        exact hnum
  | arr xs =>
    cases xs with
    | nil => rfl
    | cons x xs =>
      have hwf' : (JsonList.cons x xs).wf = true := by
        simpa [Json.wf] using hwf
      have hsz' : jsizeItems (.cons x xs) ≤ fuel := by
        simp only [jsize] at hsz
        omega
      have goal0 : dumpsChars level (.arr (.cons x xs)) ++ rest =
          '[' :: ('\n' :: (dumpsItemsChars (level + 1) (.cons x xs) ++
            ('\n' :: (indentChars level ++ (']' :: rest))))) := by
        show ('[' :: '\n' :: (dumpsItemsChars (level + 1) (JsonList.cons x xs) ++
          '\n' :: indentChars level ++ [']'])) ++ rest = _
        simp only [List.cons_append, List.append_assoc, List.nil_append]
      rw [goal0]
      obtain ⟨c0, t0, hsk0, hw0, hb0, hbr0⟩ := skipWs_dumpsItems_head (level + 1) x xs
        ('\n' :: (indentChars level ++ (']' :: rest)))
      have hsk : skipWs ('\n' :: (dumpsItemsChars (level + 1) (.cons x xs) ++
          ('\n' :: (indentChars level ++ (']' :: rest))))) = c0 :: t0 := by
        rw [skipWs_cons_ws (show isWsChar '\n' = true by decide)]
        exact hsk0
      have hitems := parseItems_dumps (.cons x xs) (level + 1) ['\n']
        ('\n' :: indentChars level) rest fuel (fun h => JsonList.noConfusion h)
        hwf' hsz'
        (by
          intro c hc
          rw [List.mem_singleton] at hc
          subst hc
          decide)
        (by
          intro c hc
          rcases List.mem_cons.mp hc with h | h
          · subst h
            decide
          · exact indentChars_ws c h)
      simp only [List.cons_append, List.nil_append, List.append_assoc] at hitems
      exact parseValue_lbrack_step fuel hsk hb0 hitems
  | obj fs =>
    cases fs with
    | nil => rfl
    | cons k v fs =>
      have hwf' : (JsonFields.cons k v fs).wf = true := by
        simpa [Json.wf] using hwf
      have hsz' : jsizeFields (.cons k v fs) ≤ fuel := by
        simp only [jsize] at hsz
        omega
      have goal0 : dumpsChars level (.obj (.cons k v fs)) ++ rest =
          lbrace :: ('\n' :: (dumpsFieldsChars (level + 1) (.cons k v fs) ++
            ('\n' :: (indentChars level ++ (rbrace :: rest))))) := by
        show (lbrace :: '\n' :: (dumpsFieldsChars (level + 1) (JsonFields.cons k v fs) ++
          '\n' :: indentChars level ++ [rbrace])) ++ rest = _
        simp only [List.cons_append, List.append_assoc, List.nil_append]
      rw [goal0]
      obtain ⟨t0, hsk0⟩ := skipWs_dumpsFields_head (level + 1) k v fs
        ('\n' :: (indentChars level ++ (rbrace :: rest)))
      have hsk : skipWs ('\n' :: (dumpsFieldsChars (level + 1) (.cons k v fs) ++
          ('\n' :: (indentChars level ++ (rbrace :: rest))))) = '"' :: t0 := by
        rw [skipWs_cons_ws (show isWsChar '\n' = true by decide)]
        exact hsk0
      have hfields := parseFields_dumps (.cons k v fs) (level + 1) ['\n']
        ('\n' :: indentChars level) rest fuel (fun h => JsonFields.noConfusion h)
        hwf' hsz'
        (by
          intro c hc
          rw [List.mem_singleton] at hc
          subst hc
          decide)
        (by
          intro c hc
          rcases List.mem_cons.mp hc with h | h
          · subst h
            decide
          · exact indentChars_ws c h)
      simp only [List.cons_append, List.nil_append, List.append_assoc] at hfields
      exact parseValue_lbrace_step fuel hsk hfields

theorem parseItems_dumps (xs : JsonList) (level : Nat) (pre mid rest : List Char)
    (fuel : Nat) (hne : xs ≠ .nil) (hwf : xs.wf = true)
    (hsz : jsizeItems xs ≤ fuel)
    (hpre : ∀ c ∈ pre, isWsChar c = true) (hmid : ∀ c ∈ mid, isWsChar c = true) :
    parseItems fuel (pre ++ (dumpsItemsChars level xs ++ (mid ++ (']' :: rest)))) =
      some (xs, rest) := by
  cases xs with
  | nil => exact absurd rfl hne
  | cons x xs =>
    obtain ⟨fuel, rfl⟩ : ∃ f, fuel = f + 1 := ⟨fuel - 1, by
      have := jsizeItems_pos x xs
      omega⟩
    have hwf2 := hwf
    simp only [JsonList.wf, Bool.and_eq_true] at hwf2
    obtain ⟨hxwf, hxswf⟩ := hwf2
    simp only [jsizeItems] at hsz
    cases xs with
    | nil =>
      have hval : parseValue fuel (pre ++ (dumpsItemsChars level (.cons x .nil) ++
          (mid ++ (']' :: rest)))) = some (x, mid ++ (']' :: rest)) := by
        have goal0 : pre ++ (dumpsItemsChars level (.cons x .nil) ++
            (mid ++ (']' :: rest))) =
            pre ++ (indentChars level ++ (dumpsChars level x ++
              (mid ++ (']' :: rest)))) := by
          simp only [dumpsItemsChars, List.append_assoc]
        rw [goal0, parseValue_wsLead fuel hpre, parseValue_wsLead fuel
          indentChars_ws]
        exact parseValue_dumps x level _ fuel hxwf (by omega)
          (numStop_ws_brk hmid (show isDigitChar ']' = false by decide)
            (show (']' : Char) ≠ '.' by decide) rest)
      have hsk : skipWs (mid ++ (']' :: rest)) = ']' :: rest := by
        rw [skipWs_append hmid, skipWs_cons_not_ws (show isWsChar ']' = false by decide)]
      exact parseItems_last_step fuel hval hsk
    | cons y ys =>
      have hval : parseValue fuel (pre ++ (dumpsItemsChars level (.cons x (.cons y ys)) ++
          (mid ++ (']' :: rest)))) = some (x, ',' :: ('\n' ::
            (dumpsItemsChars level (.cons y ys) ++ (mid ++ (']' :: rest))))) := by
        have goal0 : pre ++ (dumpsItemsChars level (.cons x (.cons y ys)) ++
            (mid ++ (']' :: rest))) =
            pre ++ (indentChars level ++ (dumpsChars level x ++
              (',' :: ('\n' :: (dumpsItemsChars level (.cons y ys) ++
                (mid ++ (']' :: rest))))))) := by
          simp only [dumpsItemsChars, List.cons_append, List.append_assoc]
        rw [goal0, parseValue_wsLead fuel hpre, parseValue_wsLead fuel
          indentChars_ws]
        exact parseValue_dumps x level _ fuel hxwf (by omega) (numStop_comma _)
      have hsk : skipWs (',' :: ('\n' :: (dumpsItemsChars level (.cons y ys) ++
          (mid ++ (']' :: rest))))) = ',' :: ('\n' ::
            (dumpsItemsChars level (.cons y ys) ++ (mid ++ (']' :: rest)))) :=
        skipWs_cons_not_ws (show isWsChar ',' = false by decide) _
      have hrec := parseItems_dumps (.cons y ys) level ['\n'] mid rest fuel
        (fun h => JsonList.noConfusion h) hxswf (by omega)
        (by
          intro c hc
          rw [List.mem_singleton] at hc
          subst hc
          decide) hmid
      simp only [List.cons_append, List.nil_append] at hrec
      exact parseItems_cons_step fuel hval hsk hrec

theorem parseFields_dumps (fs : JsonFields) (level : Nat) (pre mid rest : List Char)
    (fuel : Nat) (hne : fs ≠ .nil) (hwf : fs.wf = true)
    (hsz : jsizeFields fs ≤ fuel)
    (hpre : ∀ c ∈ pre, isWsChar c = true) (hmid : ∀ c ∈ mid, isWsChar c = true) :
    parseFields fuel (pre ++ (dumpsFieldsChars level fs ++ (mid ++ (rbrace :: rest)))) =
      some (fs, rest) := by
  cases fs with
  | nil => exact absurd rfl hne
  | cons k v fs =>
    obtain ⟨fuel, rfl⟩ : ∃ f, fuel = f + 1 := ⟨fuel - 1, by
      have := jsizeFields_pos k v fs
      omega⟩
    have hwf2 := hwf
    simp only [JsonFields.wf, Bool.and_eq_true] at hwf2
    obtain ⟨hvwf, hfswf⟩ := hwf2
    simp only [jsizeFields] at hsz
    cases fs with
    | nil =>
      have h0 : skipWs (pre ++ (dumpsFieldsChars level (.cons k v .nil) ++
          (mid ++ (rbrace :: rest)))) = '"' :: (k.data.flatMap escapeChar ++
            ('"' :: (':' :: (' ' :: (dumpsChars level v ++
              (mid ++ (rbrace :: rest))))))) := by
        have goal0 : pre ++ (dumpsFieldsChars level (.cons k v .nil) ++
            (mid ++ (rbrace :: rest))) =
            pre ++ (indentChars level ++ (escapeStringChars k ++
              (':' :: (' ' :: (dumpsChars level v ++ (mid ++ (rbrace :: rest))))))) := by
          simp only [dumpsFieldsChars, List.cons_append, List.append_assoc]
        rw [goal0, skipWs_append hpre, skipWs_ind_esc]
      have h1 := parseStringBody_escapeString k
        (':' :: (' ' :: (dumpsChars level v ++ (mid ++ (rbrace :: rest)))))
      have h2 : skipWs (':' :: (' ' :: (dumpsChars level v ++
          (mid ++ (rbrace :: rest))))) = ':' :: (' ' :: (dumpsChars level v ++
            (mid ++ (rbrace :: rest)))) :=
        skipWs_cons_not_ws (show isWsChar ':' = false by decide) _
      have h3 : parseValue fuel (' ' :: (dumpsChars level v ++
          (mid ++ (rbrace :: rest)))) = some (v, mid ++ (rbrace :: rest)) := by
        rw [show parseValue fuel (' ' :: (dumpsChars level v ++
            (mid ++ (rbrace :: rest)))) =
            parseValue fuel (dumpsChars level v ++ (mid ++ (rbrace :: rest))) from
          parseValue_wsLead fuel singleton_space_ws _]
        exact parseValue_dumps v level _ fuel hvwf (by omega)
          (numStop_ws_brk hmid (show isDigitChar rbrace = false by decide)
            (show rbrace ≠ '.' by decide) rest)
      have h4 : skipWs (mid ++ (rbrace :: rest)) = rbrace :: rest := by
        rw [skipWs_append hmid,
          skipWs_cons_not_ws (show isWsChar rbrace = false by decide)]
      exact parseFields_last_step fuel h0 h1 h2 h3 h4
    | cons k2 v2 fs2 =>
      have h0 : skipWs (pre ++ (dumpsFieldsChars level (.cons k v (.cons k2 v2 fs2)) ++
          (mid ++ (rbrace :: rest)))) = '"' :: (k.data.flatMap escapeChar ++
            ('"' :: (':' :: (' ' :: (dumpsChars level v ++
              (',' :: ('\n' :: (dumpsFieldsChars level (.cons k2 v2 fs2) ++
                (mid ++ (rbrace :: rest)))))))))) := by
        have goal0 : pre ++ (dumpsFieldsChars level (.cons k v (.cons k2 v2 fs2)) ++
            (mid ++ (rbrace :: rest))) =
            pre ++ (indentChars level ++ (escapeStringChars k ++
              (':' :: (' ' :: (dumpsChars level v ++
                (',' :: ('\n' :: (dumpsFieldsChars level (.cons k2 v2 fs2) ++
                  (mid ++ (rbrace :: rest)))))))))) := by
          simp only [dumpsFieldsChars, List.cons_append, List.append_assoc]
        rw [goal0, skipWs_append hpre, skipWs_ind_esc]
      have h1 := parseStringBody_escapeString k
        (':' :: (' ' :: (dumpsChars level v ++ (',' :: ('\n' ::
          (dumpsFieldsChars level (.cons k2 v2 fs2) ++ (mid ++ (rbrace :: rest))))))))
      have h2 : skipWs (':' :: (' ' :: (dumpsChars level v ++ (',' :: ('\n' ::
          (dumpsFieldsChars level (.cons k2 v2 fs2) ++ (mid ++ (rbrace :: rest)))))))) =
          ':' :: (' ' :: (dumpsChars level v ++ (',' :: ('\n' ::
            (dumpsFieldsChars level (.cons k2 v2 fs2) ++ (mid ++ (rbrace :: rest))))))) :=
        skipWs_cons_not_ws (show isWsChar ':' = false by decide) _
      have h3 : parseValue fuel (' ' :: (dumpsChars level v ++ (',' :: ('\n' ::
          (dumpsFieldsChars level (.cons k2 v2 fs2) ++ (mid ++ (rbrace :: rest))))))) =
          some (v, ',' :: ('\n' :: (dumpsFieldsChars level (.cons k2 v2 fs2) ++
            (mid ++ (rbrace :: rest))))) := by
        rw [show parseValue fuel (' ' :: (dumpsChars level v ++ (',' :: ('\n' ::
            (dumpsFieldsChars level (.cons k2 v2 fs2) ++
              (mid ++ (rbrace :: rest))))))) =
            parseValue fuel (dumpsChars level v ++ (',' :: ('\n' ::
              (dumpsFieldsChars level (.cons k2 v2 fs2) ++
                (mid ++ (rbrace :: rest)))))) from
          parseValue_wsLead fuel singleton_space_ws _]
        exact parseValue_dumps v level _ fuel hvwf (by omega) (numStop_comma _)
      have h4 : skipWs (',' :: ('\n' :: (dumpsFieldsChars level (.cons k2 v2 fs2) ++
          (mid ++ (rbrace :: rest))))) = ',' :: ('\n' ::
            (dumpsFieldsChars level (.cons k2 v2 fs2) ++ (mid ++ (rbrace :: rest)))) :=
        skipWs_cons_not_ws (show isWsChar ',' = false by decide) _
      have hrec := parseFields_dumps (.cons k2 v2 fs2) level ['\n'] mid rest fuel
        (fun h => JsonFields.noConfusion h) hfswf (by omega)
        (by
          intro c hc
          rw [List.mem_singleton] at hc
          subst hc
          decide) hmid
      simp only [List.cons_append, List.nil_append] at hrec
      exact parseFields_cons_step fuel h0 h1 h2 h3 h4 hrec

end

/-! ## Fuel sufficiency: the printed text is at least as long as the fuel needed -/

/-- A printed natural number has at least one character. -/
theorem natChars_length_pos (n : Nat) : 1 ≤ (natChars n).length := by
  by_cases h : n = 0
  · subst h
    rfl
  · have hne : Nat.digits 10 n ≠ [] := Nat.digits_ne_nil_iff_ne_zero.mpr h
    rw [natChars, if_neg h]
    simp only [List.length_map, List.length_reverse]
    exact List.length_pos.mpr hne

mutual

theorem jsize_le_dumps_length (j : Json) (level : Nat) :
    jsize j ≤ (dumpsChars level j).length := by
  cases j with
  | null => simp [jsize, dumpsChars]
  | bool b =>
    cases b with
    | true => simp [jsize, dumpsChars]
    | false => simp [jsize, dumpsChars]
  | num neg ip frac =>
    have := natChars_length_pos ip
    simp only [jsize, dumpsChars, numChars, List.length_append]
    omega
  | str s =>
    simp only [jsize, dumpsChars, escapeStringChars, List.length_append,
      List.length_cons]
    omega
  | arr xs =>
    cases xs with
    | nil => simp [jsize, dumpsChars, jsizeItems]
    | cons x xs =>
      have hit := jsizeItems_le_dumps_length (.cons x xs) (level + 1)
        (fun h => JsonList.noConfusion h) (by omega)
      simp only [jsize, dumpsChars, List.length_append, List.length_cons]
      omega
  | obj fs =>
    cases fs with
    | nil => simp [jsize, dumpsChars, jsizeFields]
    | cons k v fs =>
      have hfl := jsizeFields_le_dumps_length (.cons k v fs) (level + 1)
        (fun h => JsonFields.noConfusion h) (by omega)
      simp only [jsize, dumpsChars, List.length_append, List.length_cons]
      omega

theorem jsizeItems_le_dumps_length (xs : JsonList) (level : Nat) (hne : xs ≠ .nil)
    (hlevel : 1 ≤ level) :
    jsizeItems xs ≤ (dumpsItemsChars level xs).length := by
  cases xs with
  | nil => exact absurd rfl hne
  | cons x xs =>
    have hx := jsize_le_dumps_length x level
    cases xs with
    | nil =>
      simp only [jsizeItems, dumpsItemsChars, List.length_append, indentChars,
        List.length_replicate]
      omega
    | cons y ys =>
      have hys := jsizeItems_le_dumps_length (.cons y ys) level
        (fun h => JsonList.noConfusion h) hlevel
      simp only [jsizeItems, dumpsItemsChars, List.length_append, List.length_cons,
        indentChars, List.length_replicate] at hys ⊢
      omega

theorem jsizeFields_le_dumps_length (fs : JsonFields) (level : Nat)
    (hne : fs ≠ .nil) (hlevel : 1 ≤ level) :
    jsizeFields fs ≤ (dumpsFieldsChars level fs).length := by
  cases fs with
  | nil => exact absurd rfl hne
  | cons k v fs =>
    have hv := jsize_le_dumps_length v level
    cases fs with
    | nil =>
      simp only [jsizeFields, dumpsFieldsChars, List.length_append, List.length_cons,
        indentChars, List.length_replicate]
      omega
    | cons k2 v2 fs2 =>
      have hfs := jsizeFields_le_dumps_length (.cons k2 v2 fs2) level
        (fun h => JsonFields.noConfusion h) hlevel
      simp only [jsizeFields, dumpsFieldsChars, List.length_append, List.length_cons,
        indentChars, List.length_replicate] at hfs ⊢
      omega

end

/-- Reading back what `json.dumps` wrote yields the original value: `json.loads`
inverts `json.dumps` on well-formed values. -/
theorem json_loads_dumps (j : Json) (hwf : j.wf = true) :
    json_loads (json_dumps j) = some j := by
  have h := parseValue_dumps j 0 [] ((dumpsChars 0 j).length + 1) hwf
    (le_trans (jsize_le_dumps_length j 0) (by omega)) (Or.inl rfl)
  rw [List.append_nil] at h
  simp only [json_loads]
  rw [show (json_dumps j).length = (dumpsChars 0 j).length from rfl,
    show (json_dumps j).data = dumpsChars 0 j from rfl, h]
  rfl

/-! ## Concrete fixtures used by the claim witnesses -/

/-- Environment with both required values set and no TTS overrides. -/
def envFull : Env := ⟨some "key", some "model", none, none, none⟩

/-- Environment with the API key unset. -/
def envNoKey : Env := ⟨none, some "model", none, none, none⟩

/-- Environment with a non-standard TTS format. -/
def envWav : Env := ⟨some "key", some "model", none, none, some "wav"⟩

/-- Empty filesystem. -/
def fsEmpty : FS := fun _ => none

/-- Filesystem holding one image file. -/
def fsImg : FS := fun p => if p = "stamp.jpg" then some (.binary [255, 216]) else none

/-- Service response whose single choice carries the given content. -/
def respWith (t : String) : SvcResponse := ⟨[⟨some ⟨some t⟩⟩]⟩

/-- Service response with an empty choices list. -/
def respEmptyChoices : SvcResponse := ⟨[]⟩

/-- Service response whose single choice carries empty content. -/
def respEmptyContent : SvcResponse := ⟨[⟨some ⟨some ""⟩⟩]⟩

/-- A small stamp record with a nested `reference_info` object and a fractional
`confidence`. -/
def sampleRecord : Json :=
  .obj (.cons "country" (.str "Франция")
    (.cons "confidence" (.num false 0 [9])
      (.cons "colors" (.arr (.cons (.str "синий") .nil))
        (.cons "reference_info"
          (.obj (.cons "info_source" (.str "open sources")
            (.cons "verification_note"
              (.str "Информация требует сверки с каталогами") .nil))) .nil))))

/-! ## Claim theorems -/

/-- C5: MIME selection of the image encoder: a suffix lower-casing to `.jpg` or
`.jpeg` selects `image/jpeg`, `.png` selects `image/png`, `.gif` selects
`image/gif`, `.webp` selects `image/webp`, and any other suffix selects
`image/jpeg` without error. -/
theorem C5_mime_selection (ext : String) :
    mimeTypeFor ext =
      if ext.toLower = ".jpg" ∨ ext.toLower = ".jpeg" then "image/jpeg"
      else if ext.toLower = ".png" then "image/png"
      else if ext.toLower = ".gif" then "image/gif"
      else if ext.toLower = ".webp" then "image/webp"
      else "image/jpeg" := by
  rw [mimeTypeFor, mime_types]
  by_cases h1 : ext.toLower = ".jpg"
  · simp [List.lookup, h1]
  · by_cases h2 : ext.toLower = ".jpeg"
    · simp [List.lookup, h1, h2]
    · by_cases h3 : ext.toLower = ".png"
      · simp [List.lookup, h1, h2, h3]
      · by_cases h4 : ext.toLower = ".gif"
        · simp [List.lookup, h1, h2, h3, h4]
        · by_cases h5 : ext.toLower = ".webp"
          · simp [List.lookup, h1, h2, h3, h4, h5]
          · simp [List.lookup, beq_eq_false_iff_ne.mpr h1, beq_eq_false_iff_ne.mpr h2,
              beq_eq_false_iff_ne.mpr h3, beq_eq_false_iff_ne.mpr h4,
              beq_eq_false_iff_ne.mpr h5, h1, h2, h3, h4, h5]

/-- C3: for a non-existent image path (with both configuration values present, so
that control reaches the file check), `analyze_stamp` fails with the
`FileNotFoundError` naming the path, and no network call is made. -/
theorem C3_missing_image (env : Env) (fs : FS) (image_path : String)
    (resp : SvcResponse) (hkey : truthy env.openai_api_key = true)
    (hmodel : truthy env.openai_model = true)
    (hfile : fs.pathExists image_path = false) :
    (analyze_stamp env fs image_path resp).result =
      .error (.fileNotFound ("Файл изображения не найден: " ++ image_path)) ∧
    (analyze_stamp env fs image_path resp).networkCalled = false := by
  constructor <;> simp [analyze_stamp, hkey, hmodel, hfile]

/-- Witness for C3 at a concrete environment, empty filesystem and path. -/
theorem C3_missing_image_witness :
    truthy envFull.openai_api_key = true ∧ truthy envFull.openai_model = true ∧
    FS.pathExists fsEmpty "stamp.jpg" = false ∧
    ((analyze_stamp envFull fsEmpty "stamp.jpg" (respWith "x")).result =
        .error (.fileNotFound ("Файл изображения не найден: " ++ "stamp.jpg")) ∧
      (analyze_stamp envFull fsEmpty "stamp.jpg" (respWith "x")).networkCalled =
        false) :=
  ⟨by decide, by decide, by decide,
    C3_missing_image envFull fsEmpty "stamp.jpg" (respWith "x") (by decide)
      (by decide) (by decide)⟩

/-- C4: when the API key or the model environment value is missing (unset or
empty), `analyze_stamp` fails with a `ConfigurationError` `ValueError` and makes
no network call. -/
theorem C4_missing_configuration (env : Env) (fs : FS) (image_path : String)
    (resp : SvcResponse)
    (h : truthy env.openai_api_key = false ∨ truthy env.openai_model = false) :
    (∃ m, (analyze_stamp env fs image_path resp).result =
      .error (.configurationError m)) ∧
    (analyze_stamp env fs image_path resp).networkCalled = false := by
  cases hk : truthy env.openai_api_key with
  | false =>
    exact ⟨⟨"OPENAI_API_KEY не найден в переменных окружения. Проверьте файл .env",
      by simp [analyze_stamp, hk]⟩, by simp [analyze_stamp, hk]⟩
  | true =>
    have hm : truthy env.openai_model = false := by
      rcases h with h | h
      · rw [hk] at h
        cases h
      · exact h
    exact ⟨⟨"OPENAI_MODEL не найден в переменных окружения. Проверьте файл .env",
      by simp [analyze_stamp, hk, hm]⟩, by simp [analyze_stamp, hk, hm]⟩

/-- Witness for C4 at an environment with the API key unset. -/
theorem C4_missing_configuration_witness :
    (truthy envNoKey.openai_api_key = false ∨ truthy envNoKey.openai_model = false) ∧
    ((∃ m, (analyze_stamp envNoKey fsImg "stamp.jpg" (respWith "x")).result =
        .error (.configurationError m)) ∧
      (analyze_stamp envNoKey fsImg "stamp.jpg" (respWith "x")).networkCalled =
        false) :=
  ⟨Or.inl (by decide),
    C4_missing_configuration envNoKey fsImg "stamp.jpg" (respWith "x")
      (Or.inl (by decide))⟩

/-- C7: when the analysis service returns an empty envelope — empty `choices`
list, a choice without a message, or absent/empty content — `analyze_stamp`
fails with an `EmptyResponse` `ValueError`, the driver exits 1, and the
filesystem is left unchanged (no output file is written). -/
theorem C7_empty_response (env : Env) (fs : FS) (image_path : String) (tts : Bool)
    (resp nresp : SvcResponse) (audio : List Nat)
    (hkey : truthy env.openai_api_key = true)
    (hmodel : truthy env.openai_model = true)
    (hfile : fs.pathExists image_path = true)
    (hempty : resp.choices = [] ∨
      (∃ rest, resp.choices = ⟨none⟩ :: rest) ∨
      (∃ m rest, resp.choices = ⟨some m⟩ :: rest ∧
        (m.content = none ∨ m.content = some ""))) :
    (∃ msg, (analyze_stamp env fs image_path resp).result =
      .error (.emptyResponse msg)) ∧
    (mainRun env fs ⟨image_path, tts⟩ resp nresp audio).exitCode = 1 ∧
    (mainRun env fs ⟨image_path, tts⟩ resp nresp audio).fs = fs := by
  obtain ⟨msg, he⟩ : ∃ msg, (analyze_stamp env fs image_path resp).result =
      .error (.emptyResponse msg) := by
    rcases hempty with h | ⟨rest, h⟩ | ⟨m, rest, h, hm⟩
    · exact ⟨"API вернул пустой список choices",
        by simp [analyze_stamp, hkey, hmodel, hfile, h]⟩
    · exact ⟨"API вернул ответ без message",
        by simp [analyze_stamp, hkey, hmodel, hfile, h]⟩
    · rcases hm with hm | hm
      · exact ⟨"Модель вернула пустой ответ",
          by simp [analyze_stamp, hkey, hmodel, hfile, h, hm]⟩
      · exact ⟨"Модель вернула пустой ответ",
          by simp [analyze_stamp, hkey, hmodel, hfile, h, hm]⟩
  exact ⟨⟨msg, he⟩, by simp [mainRun, he], by simp [mainRun, he]⟩

/-- Witness for C7 at a response with an empty choices list. -/
theorem C7_empty_response_witness :
    (truthy envFull.openai_api_key = true ∧ truthy envFull.openai_model = true ∧
      FS.pathExists fsImg "stamp.jpg" = true ∧ respEmptyChoices.choices = []) ∧
    ((∃ msg, (analyze_stamp envFull fsImg "stamp.jpg" respEmptyChoices).result =
        .error (.emptyResponse msg)) ∧
      (mainRun envFull fsImg ⟨"stamp.jpg", false⟩ respEmptyChoices (respWith "x")
        []).exitCode = 1 ∧
      (mainRun envFull fsImg ⟨"stamp.jpg", false⟩ respEmptyChoices (respWith "x")
        []).fs = fsImg) :=
  ⟨⟨by decide, by decide, by decide, rfl⟩,
    C7_empty_response envFull fsImg "stamp.jpg" false respEmptyChoices
      (respWith "x") [] (by decide) (by decide) (by decide) (Or.inl rfl)⟩

/-- C10: in `json_to_voice` the configuration checks precede the input-file
check: a missing API key or model yields `ConfigurationError` regardless of the
filesystem (in particular even when `json_path` does not exist), and a
`FileNotFoundError` can only be raised when both configuration values are
present. -/
theorem C10_config_before_file (env : Env) (fs : FS) (json_path output_dir : String)
    (nresp : SvcResponse) (audio : List Nat) :
    ((truthy env.openai_api_key = false ∨ truthy env.openai_model = false) →
      ∃ m, json_to_voice env fs json_path output_dir nresp audio =
        .error (.configurationError m)) ∧
    (∀ m, json_to_voice env fs json_path output_dir nresp audio =
        .error (.fileNotFound m) →
      truthy env.openai_api_key = true ∧ truthy env.openai_model = true) := by
  constructor
  · intro h
    cases hk : truthy env.openai_api_key with
    | false =>
      exact ⟨"OPENAI_API_KEY не найден в переменных окружения. Проверьте файл .env",
        by simp [json_to_voice, hk]⟩
    | true =>
      have hm : truthy env.openai_model = false := by
        rcases h with h | h
        · rw [hk] at h
          cases h
        · exact h
      exact ⟨"OPENAI_MODEL не найден в переменных окружения. Проверьте файл .env",
        by simp [json_to_voice, hk, hm]⟩
  · intro m hfnf
    cases hk : truthy env.openai_api_key with
    | false => simp [json_to_voice, hk] at hfnf
    | true =>
      cases hmo : truthy env.openai_model with
      | false => simp [json_to_voice, hk, hmo] at hfnf
      | true => exact ⟨rfl, rfl⟩

/-- Witness for C10: with the API key unset and a non-existent
`json_path`, the failure is `ConfigurationError`, not `FileNotFoundError`. -/
theorem C10_config_before_file_witness :
    (truthy envNoKey.openai_api_key = false ∨ truthy envNoKey.openai_model = false) ∧
    FS.pathExists fsEmpty "missing.json" = false ∧
    (∃ m, json_to_voice envNoKey fsEmpty "missing.json" "output" (respWith "x")
      [1] = .error (.configurationError m)) :=
  ⟨Or.inl (by decide), by decide,
    (C10_config_before_file envNoKey fsEmpty "missing.json" "output" (respWith "x")
      [1]).1 (Or.inl (by decide))⟩

/-- C9: `json_to_voice` performs no validation of the TTS format string: for any
value of the format environment variable (`mp3`/`opus`/`aac`/`flac` or anything
else), a run in which loading, narration, and the audio call succeed writes the
audio bytes to `<output_dir>/result.<format>` and returns that path; an unset
variable yields the default extension `mp3` (the `getD "mp3"` below). -/
theorem C9_format_not_validated (env : Env) (fs : FS)
    (json_path output_dir : String) (nresp : SvcResponse) (audio : List Nat)
    (stamp_data : Json) (voice_script : String)
    (hkey : truthy env.openai_api_key = true)
    (hmodel : truthy env.openai_model = true)
    (hload : load_json_result fs json_path = .ok stamp_data)
    (hscript : generate_voice_script stamp_data env.openai_api_key
      env.openai_model nresp = .ok voice_script)
    (httsm : env.openai_tts_model.getD "tts-1" ≠ "")
    (httsv : env.openai_tts_voice.getD "alloy" ≠ "")
    (haudio : audio ≠ []) :
    json_to_voice env fs json_path output_dir nresp audio =
      .ok ((fs.write (output_dir ++ "/voice_script.txt")
          (.text voice_script)).write
            (output_dir ++ "/result." ++ env.openai_tts_format.getD "mp3")
            (.binary audio),
        ⟨output_dir ++ "/voice_script.txt",
          output_dir ++ "/result." ++ env.openai_tts_format.getD "mp3"⟩) := by
  have haudio' : audio.isEmpty = false := by
    cases audio with
    | nil => exact absurd rfl haudio
    | cons a l => rfl
  simp [json_to_voice, generate_audio, hkey, hmodel, hload, hscript, httsm,
    httsv, haudio']

/-- Witness for C9 at the non-standard format `wav`. -/
theorem C9_format_not_validated_witness :
    (envWav.openai_tts_format = some "wav" ∧
      load_json_result (fsEmpty.write "output/result.json" (.text "[]"))
        "output/result.json" = .ok (.arr .nil) ∧
      generate_voice_script (.arr .nil) envWav.openai_api_key envWav.openai_model
        (respWith "Текст") = .ok "Текст") ∧
    json_to_voice envWav (fsEmpty.write "output/result.json" (.text "[]"))
        "output/result.json" "output" (respWith "Текст") [7, 8] =
      .ok (((fsEmpty.write "output/result.json" (.text "[]")).write
          ("output" ++ "/voice_script.txt") (.text "Текст")).write
            ("output" ++ "/result." ++ envWav.openai_tts_format.getD "mp3")
            (.binary [7, 8]),
        ⟨"output" ++ "/voice_script.txt",
          "output" ++ "/result." ++ envWav.openai_tts_format.getD "mp3"⟩) :=
  ⟨⟨rfl, rfl, rfl⟩,
    C9_format_not_validated envWav (fsEmpty.write "output/result.json" (.text "[]"))
      "output/result.json" "output" (respWith "Текст") [7, 8] (.arr .nil) "Текст"
      (by decide) (by decide) rfl rfl (by decide) (by decide) (by decide)⟩

/-- C6: round trip through the persisted file: any well-formed record written by
the persister to `output/result.json` (as `json.dumps` text) is read back by
`load_json_result` as a structurally identical value — same keys, same nested
objects, unchanged numbers. -/
theorem C6_roundtrip (fs : FS) (record : Json) (hwf : record.wf = true) :
    load_json_result (fs.write "output/result.json" (.text (json_dumps record)))
      "output/result.json" = .ok record := by
  have hw : (fs.write "output/result.json" (.text (json_dumps record)))
      "output/result.json" = some (.text (json_dumps record)) := by
    simp [FS.write]
  have hex : (fs.write "output/result.json"
      (.text (json_dumps record))).pathExists "output/result.json" = true := by
    simp [FS.pathExists, hw]
  rw [load_json_result, if_neg (by simp [hex]), hw]
  simp only []
  rw [json_loads_dumps record hwf]

/-- Witness for C6 at a concrete stamp record with nested `reference_info` and
confidence 0.9. -/
theorem C6_roundtrip_witness :
    sampleRecord.wf = true ∧
    load_json_result (fsEmpty.write "output/result.json"
        (.text (json_dumps sampleRecord))) "output/result.json" =
      .ok sampleRecord :=
  ⟨by decide, C6_roundtrip fsEmpty sampleRecord (by decide)⟩

/-- C8: on a successful run the driver exits 0 and `output/result.json` holds the
parsed record serialized by `json.dumps(..., ensure_ascii=False, indent=2)`; the
closed conjunct exhibits the format on a concrete record: two-space indentation
and the non-ASCII text left unescaped. -/
theorem C8_persisted_format (env : Env) (fs : FS) (image_path : String)
    (aresp nresp : SvcResponse) (audio : List Nat) (t : String) (j : Json)
    (hres : (analyze_stamp env fs image_path aresp).result = .ok t)
    (hparse : json_loads t = some j) :
    (mainRun env fs ⟨image_path, false⟩ aresp nresp audio).exitCode = 0 ∧
    (mainRun env fs ⟨image_path, false⟩ aresp nresp audio).fs "output/result.json" =
      some (.text (json_dumps j)) ∧
    json_dumps (.obj (.cons "country" (.str "Франция") .nil)) =
      "\x7b\n  \"country\": \"Франция\"\n\x7d" := by
  refine ⟨?_, ?_, by decide⟩
  · simp [mainRun, hres, hparse]
  · simp [mainRun, hres, hparse, FS.write]

/-- Witness for C8 with a stubbed analysis response carrying the text `[]`. -/
theorem C8_persisted_format_witness :
    ((analyze_stamp envFull fsImg "stamp.jpg" (respWith "[]")).result = .ok "[]" ∧
      json_loads "[]" = some (.arr .nil)) ∧
    ((mainRun envFull fsImg ⟨"stamp.jpg", false⟩ (respWith "[]") (respWith "x")
        []).exitCode = 0 ∧
      (mainRun envFull fsImg ⟨"stamp.jpg", false⟩ (respWith "[]") (respWith "x")
        []).fs "output/result.json" = some (.text (json_dumps (.arr .nil))) ∧
      json_dumps (.obj (.cons "country" (.str "Франция") .nil)) =
        "\x7b\n  \"country\": \"Франция\"\n\x7d") :=
  ⟨⟨rfl, rfl⟩,
    C8_persisted_format envFull fsImg "stamp.jpg" (respWith "[]") (respWith "x")
      [] "[]" (.arr .nil) rfl rfl⟩

/-- C2: under `--tts`, once the analysis has succeeded and `result.json` has been
written, any failure of the narration/synthesis branch is caught: the driver
exits 0, `result.json` keeps the persisted record, no other file changes (no
`voice_script.txt`, no audio file), and exactly the warning line is emitted. -/
theorem C2_tts_failure_is_warning (env : Env) (fs : FS) (image_path : String)
    (aresp nresp : SvcResponse) (audio : List Nat) (t : String) (j : Json)
    (e : Err) (hres : (analyze_stamp env fs image_path aresp).result = .ok t)
    (hparse : json_loads t = some j)
    (hfail : json_to_voice env
      (fs.write "output/result.json" (.text (json_dumps j)))
      "output/result.json" "output" nresp audio = .error e) :
    (mainRun env fs ⟨image_path, true⟩ aresp nresp audio).exitCode = 0 ∧
    (mainRun env fs ⟨image_path, true⟩ aresp nresp audio).fs "output/result.json" =
      some (.text (json_dumps j)) ∧
    (∀ p, p ≠ "output/result.json" →
      (mainRun env fs ⟨image_path, true⟩ aresp nresp audio).fs p = fs p) ∧
    (mainRun env fs ⟨image_path, true⟩ aresp nresp audio).stderrLines =
      ["Предупреждение: Не удалось сгенерировать голосовое описание: " ++
        errStr e] := by
  refine ⟨?_, ?_, ?_, ?_⟩
  · simp [mainRun, hres, hparse, hfail]
  · simp [mainRun, hres, hparse, hfail, FS.write]
  · intro p hp
    simp [mainRun, hres, hparse, hfail, FS.write, hp]
  · simp [mainRun, hres, hparse, hfail]

/-- Witness for C2 with a narration response whose content is empty. -/
theorem C2_tts_failure_is_warning_witness :
    ((analyze_stamp envFull fsImg "stamp.jpg" (respWith "[]")).result = .ok "[]" ∧
      json_loads "[]" = some (.arr .nil) ∧
      json_to_voice envFull
        (fsImg.write "output/result.json" (.text (json_dumps (.arr .nil))))
        "output/result.json" "output" respEmptyContent [] =
          .error (.emptyResponse "Модель вернула пустой текст для озвучки")) ∧
    ((mainRun envFull fsImg ⟨"stamp.jpg", true⟩ (respWith "[]") respEmptyContent
        []).exitCode = 0 ∧
      (mainRun envFull fsImg ⟨"stamp.jpg", true⟩ (respWith "[]") respEmptyContent
        []).fs "output/result.json" = some (.text (json_dumps (.arr .nil))) ∧
      (∀ p, p ≠ "output/result.json" →
        (mainRun envFull fsImg ⟨"stamp.jpg", true⟩ (respWith "[]") respEmptyContent
          []).fs p = fsImg p) ∧
      (mainRun envFull fsImg ⟨"stamp.jpg", true⟩ (respWith "[]") respEmptyContent
        []).stderrLines =
        ["Предупреждение: Не удалось сгенерировать голосовое описание: " ++
          errStr (.emptyResponse "Модель вернула пустой текст для озвучки")]) :=
  ⟨⟨rfl, rfl, rfl⟩,
    C2_tts_failure_is_warning envFull fsImg "stamp.jpg" (respWith "[]")
      respEmptyContent [] "[]" (.arr .nil)
      (.emptyResponse "Модель вернула пустой текст для озвучки") rfl rfl rfl⟩

/-- C1: evaluation at the failing input. When the analysis service returns the
non-JSON text `not json`, the driver raises `json.JSONDecodeError`, exits 1 and
writes no `result.json` — but, because the `except ValueError` clause at line 238
precedes the `except json.JSONDecodeError` clause at line 241 and
`JSONDecodeError` is a subclass of `ValueError`, the clause that would print the
raw response (`Ответ модели: ...`) is unreachable: stderr holds only the
configuration-error line, and the raw text is not in the diagnostic output. -/
theorem C1_dead_decode_handler :
    (mainRun envFull fsImg ⟨"stamp.jpg", false⟩ (respWith "not json")
      (respWith "x") []).exitCode = 1 ∧
    (mainRun envFull fsImg ⟨"stamp.jpg", false⟩ (respWith "not json")
      (respWith "x") []).fs "output/result.json" = none ∧
    (mainRun envFull fsImg ⟨"stamp.jpg", false⟩ (respWith "not json")
      (respWith "x") []).stderrLines =
      ["Ошибка конфигурации: Expecting value: line 1 column 1 (char 0)"] ∧
    ∀ line ∈ (mainRun envFull fsImg ⟨"stamp.jpg", false⟩ (respWith "not json")
      (respWith "x") []).stderrLines, line ≠ "Ответ модели: not json" := by
  refine ⟨rfl, rfl, rfl, ?_⟩
  intro line hl
  rw [show (mainRun envFull fsImg ⟨"stamp.jpg", false⟩ (respWith "not json")
    (respWith "x") []).stderrLines =
    ["Ошибка конфигурации: Expecting value: line 1 column 1 (char 0)"] from rfl,
    List.mem_singleton] at hl
  subst hl
  decide
